import Mathlib

/-!
Verification of the gcpscanner event-to-job dispatchers
(`gcp-migration/deploy/function-source/main.py`).

The embedding models, from the source:
  - the JSON codec used by the dispatchers (`json.loads` / `json.dumps` from
    Python's standard library, with `json.dumps` at its default settings:
    `ensure_ascii=True`, separators `", "` and `": "`).  JSON numbers are
    modelled as integers only: fractional / exponent literals and the
    `NaN` / `Infinity` extensions are outside the model, as are strings
    containing lone surrogates (Lean's `Char` carries only Unicode scalar
    values).  Within that fragment the parser follows Python's scanner:
    the same whitespace set, the same escape handling (including `\uXXXX`
    and surrogate pairs), rejection of raw control characters in strings,
    rejection of leading zeros, dict semantics for duplicate object keys
    (last value wins, first position kept);
  - the two Cloud Function entry points `trigger_scan_worker` and
    `trigger_report_generator`.  The remote Jobs client is abstracted as a
    function argument `run_job`; each dispatcher returns its outcome
    together with the list of run-job requests it issued, so that
    "exactly one call" is a statement about the returned trace.
-/

/-! ### Characters and small lexical helpers -/

/-- Python's `json` whitespace set (`' '`, `'\t'`, `'\n'`, `'\r'`). -/
def isWsChar (c : Char) : Bool :=
  c == ' ' || c == '\t' || c == '\n' || c == '\r'

/-- Drop leading JSON whitespace, as the scanner's `_w(s, idx).end()`. -/
def skipWs : List Char → List Char
  | [] => []
  | c :: cs => if isWsChar c then skipWs cs else c :: cs

/-- Decimal digit test, as the number grammar's `\d`. -/
def isDigitChar (c : Char) : Bool := '0' ≤ c && c ≤ '9'

/-- The character for a decimal digit value. -/
def digitChar (d : Nat) : Char := Char.ofNat (48 + d)

/-- The lowercase hexadecimal digit character, as `'%04x' % n` uses. -/
def hexDigitChar (d : Nat) : Char :=
  if d < 10 then Char.ofNat (48 + d) else Char.ofNat (87 + d)

/-- Value of a hexadecimal digit, either case, as `int(s, 16)` accepts. -/
def hexVal (c : Char) : Option Nat :=
  if '0' ≤ c && c ≤ '9' then some (c.toNat - 48)
  else if 'a' ≤ c && c ≤ 'f' then some (c.toNat - 87)
  else if 'A' ≤ c && c ≤ 'F' then some (c.toNat - 55)
  else none

/-! ### JSON values

Python's `json.loads` produces `None` / `bool` / `int` / `str` / `list` /
`dict`; `dict` preserves insertion order, so objects are association lists. -/

inductive Json where
  | null : Json
  | bool (b : Bool) : Json
  | int (n : Int) : Json
  | str (s : List Char) : Json
  | arr (xs : List Json) : Json
  | obj (kvs : List (List Char × Json)) : Json

instance : Inhabited Json := ⟨Json.null⟩

/-! ### Serialization: `json.dumps` at default settings -/

/-- Decimal digits of a natural number (`repr(n)`), with explicit fuel so the
definition is structural and evaluates in the kernel. -/
def natDigitsAux : Nat → Nat → List Char
  | 0, _ => []
  | fuel + 1, n =>
    if n < 10 then [digitChar n]
    else natDigitsAux fuel (n / 10) ++ [digitChar (n % 10)]

/-- Decimal digits of a natural number, most significant first. -/
def natDigits (n : Nat) : List Char := natDigitsAux (n + 1) n

/-- `repr(i)` for a Python `int`. -/
def dumpInt (i : Int) : List Char :=
  if i < 0 then '-' :: natDigits i.natAbs else natDigits i.natAbs

/-- The `\uXXXX` spelling of a code unit, as `'\\u%04x' % n`. -/
def uHex (n : Nat) : List Char :=
  ['\\', 'u', hexDigitChar (n / 4096 % 16), hexDigitChar (n / 256 % 16),
   hexDigitChar (n / 16 % 16), hexDigitChar (n % 16)]

/-- `ensure_ascii` escaping of one character that is outside `0x20`..`0x7e`:
a single `\uXXXX` for code points below `0x10000`, a surrogate pair above. -/
def uEscape (c : Char) : List Char :=
  if c.toNat < 0x10000 then uHex c.toNat
  else
    uHex (0xd800 + (c.toNat - 0x10000) / 0x400) ++
      uHex (0xdc00 + (c.toNat - 0x10000) % 0x400)

/-- Escaping of one character, as the encoder's `ESCAPE_DCT` with
`ensure_ascii=True`: named short escapes, `\uXXXX` for the remaining
characters outside `0x20`..`0x7e`, everything else verbatim. -/
def escapeChar (c : Char) : List Char :=
  if c = '"' then ['\\', '"']
  else if c = '\\' then ['\\', '\\']
  else if c = '\n' then ['\\', 'n']
  else if c = '\r' then ['\\', 'r']
  else if c = '\t' then ['\\', 't']
  else if c = '\x08' then ['\\', 'b']
  else if c = '\x0c' then ['\\', 'f']
  else if c.toNat < 0x20 ∨ 0x7e < c.toNat then uEscape c
  else [c]

/-- Escape every character of a string body. -/
def escList : List Char → List Char
  | [] => []
  | c :: cs => escapeChar c ++ escList cs

/-- A rendered string literal: quote, escaped body, quote. -/
def dumpString (s : List Char) : List Char :=
  '"' :: (escList s ++ ['"'])

mutual
/-- `json.dumps` at default settings: item separator `", "`, key separator
`": "`, objects rendered in insertion order. -/
def dumpValue : Json → List Char
  | .null => "null".toList
  | .bool true => "true".toList
  | .bool false => "false".toList
  | .int i => dumpInt i
  | .str s => dumpString s
  | .arr [] => ['[', ']']
  | .arr (v :: vs) => '[' :: (dumpValue v ++ dumpElems vs ++ [']'])
  | .obj [] => ['\x7b', '\x7d']
  | .obj ((k, v) :: kvs) =>
    '\x7b' :: (dumpString k ++ ':' :: ' ' :: dumpValue v ++ dumpMembers kvs ++ ['\x7d'])
/-- The remaining array items, each preceded by `", "`. -/
def dumpElems : List Json → List Char
  | [] => []
  | v :: vs => ',' :: ' ' :: (dumpValue v ++ dumpElems vs)
/-- The remaining object members, each preceded by `", "`. -/
def dumpMembers : List (List Char × Json) → List Char
  | [] => []
  | (k, v) :: kvs => ',' :: ' ' :: (dumpString k ++ ':' :: ' ' :: dumpValue v ++ dumpMembers kvs)
end

/-- `json.dumps` of a decoded value. -/
def json_dumps (v : Json) : List Char := dumpValue v

/-! ### Parsing: `json.loads` -/

/-- Decode one named escape character (`ESCAPE_DCT` inverse, plus `\/`). -/
def escDecode (c : Char) : Option Char :=
  if c = '"' then some '"'
  else if c = '\\' then some '\\'
  else if c = '/' then some '/'
  else if c = 'b' then some '\x08'
  else if c = 'f' then some '\x0c'
  else if c = 'n' then some '\n'
  else if c = 'r' then some '\r'
  else if c = 't' then some '\t'
  else none

/-- `py_scanstring` after the opening quote: verbatim characters (raw control
characters are rejected, as in strict mode), named escapes, `\uXXXX` with
surrogate-pair combination.  A lone surrogate is not a Unicode scalar value
and hence not representable in a Lean string; those inputs are outside the
model and rejected here. -/
def parseStringBody : List Char → Option (List Char × List Char)
  | [] => none
  | '\\' :: 'u' :: a :: b :: c :: d :: rest =>
    match hexVal a, hexVal b, hexVal c, hexVal d with
    | some va, some vb, some vc, some vd =>
      let n := ((va * 16 + vb) * 16 + vc) * 16 + vd
      if 0xd800 ≤ n ∧ n ≤ 0xdbff then
        match rest with
        | '\\' :: 'u' :: a2 :: b2 :: c2 :: d2 :: rest2 =>
          match hexVal a2, hexVal b2, hexVal c2, hexVal d2 with
          | some va2, some vb2, some vc2, some vd2 =>
            let m := ((va2 * 16 + vb2) * 16 + vc2) * 16 + vd2
            if 0xdc00 ≤ m ∧ m ≤ 0xdfff then
              match parseStringBody rest2 with
              | some (s, r) =>
                some (Char.ofNat (0x10000 + (n - 0xd800) * 0x400 + (m - 0xdc00)) :: s, r)
              | none => none
            else none
          | _, _, _, _ => none
        | _ => none
      else if 0xdc00 ≤ n ∧ n ≤ 0xdfff then none
      else
        match parseStringBody rest with
        | some (s, r) => some (Char.ofNat n :: s, r)
        | none => none
    | _, _, _, _ => none
  | '\\' :: e :: rest =>
    match escDecode e with
    | some ch =>
      match parseStringBody rest with
      | some (s, r) => some (ch :: s, r)
      | none => none
    | none => none
  | c :: rest =>
    if c = '"' then some ([], rest)
    else if c = '\\' then none
    else if c.toNat < 0x20 then none
    else
      match parseStringBody rest with
      | some (s, r) => some (c :: s, r)
      | none => none

/-- Accumulate a run of decimal digits into a number. -/
def parseDigitsAux : Nat → List Char → Nat × List Char
  | acc, [] => (acc, [])
  | acc, c :: cs =>
    if isDigitChar c then parseDigitsAux (acc * 10 + (c.toNat - 48)) cs
    else (acc, c :: cs)

/-- Can nothing extend a just-parsed integer literal here?  A following
digit means a leading zero or a delimiter error; `.`/`e`/`E` would start the
fractional or exponent part of a float, which is outside the model. -/
def numTerm : List Char → Bool
  | [] => true
  | c :: _ => !(isDigitChar c || c == '.' || c == 'e' || c == 'E')

/-- The integer fragment of `NUMBER_RE` (`-?(0|[1-9]\d*)`), positioned after
the optional sign.  Inputs where a float would follow are rejected. -/
def parseNumberTail (neg : Bool) : List Char → Option (Json × List Char)
  | [] => none
  | c :: cs =>
    if isDigitChar c then
      let p := if c = '0' then (0, cs) else parseDigitsAux (c.toNat - 48) cs
      if numTerm p.2 then
        some (.int (if neg then -(p.1 : Int) else (p.1 : Int)), p.2)
      else none
    else none

/-- `dict` assignment `d[key] = value`: an existing key keeps its position
and takes the new value, a new key is appended. -/
def insertKV : List (List Char × Json) → List Char → Json → List (List Char × Json)
  | [], k, v => [(k, v)]
  | (k1, v1) :: rest, k, v =>
    if k1 = k then (k1, v) :: rest else (k1, v1) :: insertKV rest k v

mutual
/-- `scan_once`: dispatch on the first character.  Expects the value to start
immediately (callers skip whitespace).  Fuel decreases on every recursive
call; `json_loads` supplies more fuel than any input can consume. -/
def parseValue : Nat → List Char → Option (Json × List Char)
  | 0, _ => none
  | _ + 1, [] => none
  | fuel + 1, c :: cs =>
    if c = '"' then
      match parseStringBody cs with
      | some (s, r) => some (.str s, r)
      | none => none
    else if c = '\x7b' then
      match skipWs cs with
      | '\x7d' :: r => some (.obj [], r)
      | r =>
        match parseMembers fuel r [] with
        | some (kvs, r1) => some (.obj kvs, r1)
        | none => none
    else if c = '[' then
      match skipWs cs with
      | ']' :: r => some (.arr [], r)
      | r =>
        match parseElems fuel r [] with
        | some (xs, r1) => some (.arr xs, r1)
        | none => none
    else if c = '-' then parseNumberTail true cs
    else if isDigitChar c then parseNumberTail false (c :: cs)
    else if c = 'n' then
      match cs with
      | 'u' :: 'l' :: 'l' :: r => some (.null, r)
      | _ => none
    else if c = 't' then
      match cs with
      | 'r' :: 'u' :: 'e' :: r => some (.bool true, r)
      | _ => none
    else if c = 'f' then
      match cs with
      | 'a' :: 'l' :: 's' :: 'e' :: r => some (.bool false, r)
      | _ => none
    else none
/-- `JSONArray`'s element loop, entered on a non-empty array with whitespace
after `[` already skipped: parse one value, then look at the delimiter. -/
def parseElems : Nat → List Char → List Json → Option (List Json × List Char)
  | 0, _, _ => none
  | fuel + 1, input, acc =>
    match parseValue fuel input with
    | none => none
    | some (v, rest) => parseElemsSep fuel (skipWs rest) (acc ++ [v])
/-- After an array element and any whitespace: `]` closes the array, `,`
(plus whitespace) continues with the next element, anything else is an
error. -/
def parseElemsSep : Nat → List Char → List Json → Option (List Json × List Char)
  | _, ']' :: r, acc => some (acc, r)
  | fuel + 1, ',' :: r, acc => parseElems fuel (skipWs r) acc
  | _, _, _ => none
/-- `JSONObject`'s member loop, entered on a non-empty object with whitespace
after the opening brace already skipped: quoted key, whitespace, `:`, then
the member's value. -/
def parseMembers : Nat → List Char → List (List Char × Json) →
    Option (List (List Char × Json) × List Char)
  | 0, _, _ => none
  | fuel + 1, input, acc =>
    match input with
    | '"' :: cs =>
      match parseStringBody cs with
      | none => none
      | some (k, rest) =>
        match skipWs rest with
        | ':' :: rest1 => parseMemberValue fuel (skipWs rest1) acc k
        | _ => none
    | _ => none
/-- The value of one object member; the result lands in the dict via
`insertKV` (Python `d[key] = value`). -/
def parseMemberValue : Nat → List Char → List (List Char × Json) → List Char →
    Option (List (List Char × Json) × List Char)
  | 0, _, _, _ => none
  | fuel + 1, input, acc, k =>
    match parseValue fuel input with
    | none => none
    | some (v, rest2) => parseMembersSep fuel (skipWs rest2) (insertKV acc k v)
/-- After an object member and any whitespace: the closing brace ends the
object, `,` (plus whitespace) continues with the next key, anything else is
an error. -/
def parseMembersSep : Nat → List Char → List (List Char × Json) →
    Option (List (List Char × Json) × List Char)
  | _, '\x7d' :: r, acc => some (acc, r)
  | fuel + 1, ',' :: r, acc => parseMembers fuel (skipWs r) acc
  | _, _, _ => none
end

/-- `json.loads`: skip leading whitespace, scan one value, require only
whitespace to follow (`Extra data` otherwise).  `none` is the
`JSONDecodeError` outcome. -/
def json_loads (s : List Char) : Option Json :=
  let t := skipWs s
  match parseValue (t.length + 1) t with
  | some (v, r) => if skipWs r = [] then some v else none
  | none => none

/-! ### The dispatchers (`main.py`) -/

/-- The inbound CloudEvent.  The dispatchers read exactly one thing from it:
`cloud_event.data['message']['data']`, the Pub/Sub message body; `none`
models an event in which that path is missing (a `KeyError` in Python, the
spec's missing-body `DecodeError` case). -/
structure CloudEvent where
  message_data : Option (List Char)

/-- Process-wide configuration: `os.environ['PROJECT_ID']` and
`os.environ['REGION']`.  `none` models an absent variable (a `KeyError` in
Python, the spec's `ConfigurationError`). -/
structure Config where
  PROJECT_ID : Option (List Char)
  REGION : Option (List Char)

/-- One run-job request: the fully qualified job name passed as `name=`, and
the single container's environment list
(`execution.spec.template.spec.template.spec.containers[0].env`), each entry
a `{"name": ..., "value": ...}` pair. -/
structure RunJobRequest where
  name : List Char
  env : List (List Char × List Char)
deriving DecidableEq

/-- The spec's error taxonomy (§7).  `ExecutionTriggerError` carries the
remote failure unchanged: the source has no handler, so whatever `run_job`
raises is what the caller sees. -/
inductive DispatchError (E : Type) where
  | DecodeError : DispatchError E
  | ConfigurationError : DispatchError E
  | ExecutionTriggerError (e : E) : DispatchError E
deriving DecidableEq

/-- `trigger_scan_worker`: parse the Pub/Sub body with `json.loads`, build
the fully qualified name of job `scanner-worker` from `PROJECT_ID` and
`REGION`, attach the single environment override `JOB_DATA` holding
`json.dumps` of the payload, issue the one `run_job` call, and log the
returned operation name (the `ok` result).  The second component is the
trace of run-job calls issued. -/
def trigger_scan_worker {E H : Type} (env : Config)
    (run_job : RunJobRequest → Except E H) (cloud_event : CloudEvent) :
    Except (DispatchError E) H × List RunJobRequest :=
  match cloud_event.message_data with
  | none => (.error .DecodeError, [])
  | some raw =>
    match json_loads raw with
    | none => (.error .DecodeError, [])
    | some message_data =>
      match env.PROJECT_ID with
      | none => (.error .ConfigurationError, [])
      | some proj =>
        match env.REGION with
        | none => (.error .ConfigurationError, [])
        | some region =>
          let job_name :=
            "projects/".toList ++ proj ++ "/locations/".toList ++ region ++
              "/jobs/scanner-worker".toList
          let execution : RunJobRequest :=
            { name := job_name
              env := [("JOB_DATA".toList, json_dumps message_data)] }
          match run_job execution with
          | .error e => (.error (.ExecutionTriggerError e), [execution])
          | .ok operation => (.ok operation, [execution])

/-- `trigger_report_generator`: the near-duplicate of `trigger_scan_worker`,
with job `report-generator` and environment key `REPORT_REQUEST`. -/
def trigger_report_generator {E H : Type} (env : Config)
    (run_job : RunJobRequest → Except E H) (cloud_event : CloudEvent) :
    Except (DispatchError E) H × List RunJobRequest :=
  match cloud_event.message_data with
  | none => (.error .DecodeError, [])
  | some raw =>
    match json_loads raw with
    | none => (.error .DecodeError, [])
    | some message_data =>
      match env.PROJECT_ID with
      | none => (.error .ConfigurationError, [])
      | some proj =>
        match env.REGION with
        | none => (.error .ConfigurationError, [])
        | some region =>
          let job_name :=
            "projects/".toList ++ proj ++ "/locations/".toList ++ region ++
              "/jobs/report-generator".toList
          let execution : RunJobRequest :=
            { name := job_name
              env := [("REPORT_REQUEST".toList, json_dumps message_data)] }
          match run_job execution with
          | .error e => (.error (.ExecutionTriggerError e), [execution])
          | .ok operation => (.ok operation, [execution])

/-- Modelled from the spec: the single parameterized dispatch routine of
§4.2/§9 — decode the body, build the request for the given job name and
environment key under the configured project and region, invoke the Job
Execution Service once, log the handle.  Both entry points must coincide
with it at their `(job name, environment key)` pair. -/
def dispatch {E H : Type} (job_short_name env_key : List Char) (env : Config)
    (run_job : RunJobRequest → Except E H) (cloud_event : CloudEvent) :
    Except (DispatchError E) H × List RunJobRequest :=
  match cloud_event.message_data with
  | none => (.error .DecodeError, [])
  | some raw =>
    match json_loads raw with
    | none => (.error .DecodeError, [])
    | some message_data =>
      match env.PROJECT_ID with
      | none => (.error .ConfigurationError, [])
      | some proj =>
        match env.REGION with
        | none => (.error .ConfigurationError, [])
        | some region =>
          let job_name :=
            "projects/".toList ++ proj ++ "/locations/".toList ++ region ++
              "/jobs/".toList ++ job_short_name
          let execution : RunJobRequest :=
            { name := job_name, env := [(env_key, json_dumps message_data)] }
          match run_job execution with
          | .error e => (.error (.ExecutionTriggerError e), [execution])
          | .ok operation => (.ok operation, [execution])

/-- Modelled from the spec: standard base64 of a byte sequence, used only to
state that the inbound `data` field holds base64-encoded JSON text (§6) —
the source itself never base64-decodes. -/
def b64EncodeBytes : List Nat → List Char
  | [] => []
  | [b1] =>
    ["ABCDEFGHIJKLMNOPQRSTUVWXYZabcdefghijklmnopqrstuvwxyz0123456789+/".toList.getD (b1 / 4) 'A',
     "ABCDEFGHIJKLMNOPQRSTUVWXYZabcdefghijklmnopqrstuvwxyz0123456789+/".toList.getD (b1 % 4 * 16) 'A',
     '=', '=']
  | [b1, b2] =>
    ["ABCDEFGHIJKLMNOPQRSTUVWXYZabcdefghijklmnopqrstuvwxyz0123456789+/".toList.getD (b1 / 4) 'A',
     "ABCDEFGHIJKLMNOPQRSTUVWXYZabcdefghijklmnopqrstuvwxyz0123456789+/".toList.getD (b1 % 4 * 16 + b2 / 16) 'A',
     "ABCDEFGHIJKLMNOPQRSTUVWXYZabcdefghijklmnopqrstuvwxyz0123456789+/".toList.getD (b2 % 16 * 4) 'A',
     '=']
  | b1 :: b2 :: b3 :: rest =>
    ["ABCDEFGHIJKLMNOPQRSTUVWXYZabcdefghijklmnopqrstuvwxyz0123456789+/".toList.getD (b1 / 4) 'A',
     "ABCDEFGHIJKLMNOPQRSTUVWXYZabcdefghijklmnopqrstuvwxyz0123456789+/".toList.getD (b1 % 4 * 16 + b2 / 16) 'A',
     "ABCDEFGHIJKLMNOPQRSTUVWXYZabcdefghijklmnopqrstuvwxyz0123456789+/".toList.getD (b2 % 16 * 4 + b3 / 64) 'A',
     "ABCDEFGHIJKLMNOPQRSTUVWXYZabcdefghijklmnopqrstuvwxyz0123456789+/".toList.getD (b3 % 64) 'A'] ++
    b64EncodeBytes rest

/-- Modelled from the spec: base64 of the UTF-8 bytes of ASCII text. -/
def b64encode (s : List Char) : List Char := b64EncodeBytes (s.map Char.toNat)

/-! ### Well-formed values

`json.loads` can only produce objects whose keys are distinct (they are
Python dicts); the serialize-then-parse round-trip is stated for exactly
such values. -/

mutual
/-- Every object in the value has pairwise distinct keys. -/
def JsonWF : Json → Prop
  | .null => True
  | .bool _ => True
  | .int _ => True
  | .str _ => True
  | .arr xs => JsonWFList xs
  | .obj kvs => (kvs.map Prod.fst).Nodup ∧ JsonWFKVs kvs
/-- `JsonWF` on every element. -/
def JsonWFList : List Json → Prop
  | [] => True
  | v :: vs => JsonWF v ∧ JsonWFList vs
/-- `JsonWF` on every member value. -/
def JsonWFKVs : List (List Char × Json) → Prop
  | [] => True
  | (_, v) :: kvs => JsonWF v ∧ JsonWFKVs kvs
end

/-! ### Digit and character lemmas -/

theorem digitChar_toNat {d : Nat} (h : d < 10) : (digitChar d).toNat = 48 + d := by
  interval_cases d <;> decide

theorem isDigitChar_digitChar {d : Nat} (h : d < 10) : isDigitChar (digitChar d) = true := by
  interval_cases d <;> decide

theorem hexVal_hexDigitChar {d : Nat} (h : d < 16) : hexVal (hexDigitChar d) = some d := by
  interval_cases d <;> decide

theorem digitChar_ne_zero {d : Nat} (h0 : 0 < d) (h10 : d < 10) : digitChar d ≠ '0' := by
  intro he
  have : (digitChar d).toNat = 48 := by rw [he]; decide
  rw [digitChar_toNat h10] at this
  omega

theorem char_not_surrogate (c : Char) :
    c.toNat < 0xd800 ∨ (0xdfff < c.toNat ∧ c.toNat < 0x110000) := by
  have h := c.valid
  unfold UInt32.isValidChar Nat.isValidChar at h
  exact h

/-! ### Decimal rendering and its inverse -/

theorem natDigitsAux_congr : ∀ f1 f2 n, n < f1 → n < f2 →
    natDigitsAux f1 n = natDigitsAux f2 n := by
  intro f1
  induction f1 using Nat.strong_induction_on with
  | _ f1 ih =>
    intro f2 n h1 h2
    match f1, f2 with
    | fa + 1, fb + 1 =>
      by_cases hn : n < 10
      · simp [natDigitsAux, hn]
      · have hd : n / 10 < n := Nat.div_lt_self (by omega) (by omega)
        simp only [natDigitsAux, hn, if_false]
        rw [ih fa (by omega) fb (n / 10) (by omega) (by omega)]

theorem natDigits_unfold (n : Nat) :
    natDigits n = if n < 10 then [digitChar n] else natDigits (n / 10) ++ [digitChar (n % 10)] := by
  by_cases hn : n < 10
  · simp [natDigits, natDigitsAux, hn]
  · have hd : n / 10 < n := Nat.div_lt_self (by omega) (by omega)
    simp only [natDigits, hn, if_false]
    show natDigitsAux (n + 1) n = _
    rw [show natDigitsAux (n + 1) n
        = natDigitsAux n (n / 10) ++ [digitChar (n % 10)] by simp [natDigitsAux, hn]]
    rw [natDigitsAux_congr n (n / 10 + 1) (n / 10) (by omega) (by omega)]

theorem natDigits_head (n : Nat) :
    ∃ d t, natDigits n = digitChar d :: t ∧ d < 10 ∧ (0 < n → 0 < d) := by
  induction n using Nat.strong_induction_on with
  | _ n ih =>
    rw [natDigits_unfold]
    by_cases hn : n < 10
    · exact ⟨n, [], by simp [hn], by omega, fun h => h⟩
    · have hd : n / 10 < n := Nat.div_lt_self (by omega) (by omega)
      obtain ⟨d, t, he, hlt, hpos⟩ := ih (n / 10) hd
      refine ⟨d, t ++ [digitChar (n % 10)], ?_, hlt, fun _ => hpos (by omega)⟩
      simp [hn, he]

theorem parseDigitsAux_stop {acc : Nat} {rest : List Char}
    (h : numTerm rest = true) : parseDigitsAux acc rest = (acc, rest) := by
  match rest with
  | [] => rfl
  | c :: t =>
    simp only [numTerm, Bool.not_eq_eq_eq_not, Bool.not_true, Bool.or_eq_false_iff] at h
    simp [parseDigitsAux, h.1.1.1]

theorem parseDigitsAux_append (n : Nat) : ∀ acc rest,
    parseDigitsAux acc (natDigits n ++ rest)
      = parseDigitsAux (acc * 10 ^ (natDigits n).length + n) rest := by
  induction n using Nat.strong_induction_on with
  | _ n ih =>
    intro acc rest
    rw [natDigits_unfold]
    by_cases hn : n < 10
    · simp only [hn, if_true, List.cons_append, List.nil_append]
      rw [show parseDigitsAux acc (digitChar n :: rest)
          = parseDigitsAux (acc * 10 + ((digitChar n).toNat - 48)) rest by
        simp [parseDigitsAux, isDigitChar_digitChar hn]]
      rw [digitChar_toNat hn]
      simp only [List.length_cons, List.length_nil, pow_one]
      congr 1
      omega
    · have hd : n / 10 < n := Nat.div_lt_self (by omega) (by omega)
      simp only [hn, if_false, List.append_assoc, List.cons_append, List.nil_append]
      rw [ih (n / 10) hd acc (digitChar (n % 10) :: rest)]
      rw [show ∀ m, parseDigitsAux m (digitChar (n % 10) :: rest)
          = parseDigitsAux (m * 10 + ((digitChar (n % 10)).toNat - 48)) rest by
        intro m; simp [parseDigitsAux, isDigitChar_digitChar (by omega : n % 10 < 10)]]
      rw [digitChar_toNat (by omega : n % 10 < 10)]
      simp only [List.length_append, List.length_cons, List.length_nil]
      congr 1
      rw [pow_succ, ← Nat.mul_assoc]
      generalize acc * 10 ^ (natDigits (n / 10)).length = Q
      omega

theorem parseNumberTail_natDigits (m : Nat) (neg : Bool) (rest : List Char)
    (h : numTerm rest = true) :
    parseNumberTail neg (natDigits m ++ rest)
      = some (.int (if neg then -(m : Int) else (m : Int)), rest) := by
  by_cases hm : m = 0
  · subst hm
    rw [show natDigits 0 = ['0'] from rfl]
    simp [parseNumberTail, h, show isDigitChar '0' = true from by decide]
  · obtain ⟨d, t, he, hd10, hdpos⟩ := natDigits_head m
    have hdp : 0 < d := hdpos (by omega)
    have hne : digitChar d ≠ '0' := digitChar_ne_zero hdp hd10
    have hkey : parseDigitsAux 0 (natDigits m ++ rest) = (m, rest) := by
      rw [parseDigitsAux_append]
      simpa using parseDigitsAux_stop h
    rw [he] at hkey
    simp only [List.cons_append] at hkey
    have hstep : parseDigitsAux ((digitChar d).toNat - 48) (t ++ rest) = (m, rest) := by
      rw [show parseDigitsAux ((digitChar d).toNat - 48) (t ++ rest)
          = parseDigitsAux 0 (digitChar d :: (t ++ rest)) by
        simp [parseDigitsAux, isDigitChar_digitChar hd10]]
      exact hkey
    rw [he]
    simp only [List.cons_append]
    simp [parseNumberTail, isDigitChar_digitChar hd10, hne, hstep, h]

theorem parseNumberTail_dumpInt (i : Int) (rest : List Char) (h : numTerm rest = true) :
    (0 ≤ i → parseNumberTail false (natDigits i.natAbs ++ rest) = some (.int i, rest)) ∧
    (i < 0 → parseNumberTail true (natDigits i.natAbs ++ rest) = some (.int i, rest)) := by
  constructor
  · intro hpos
    rw [parseNumberTail_natDigits i.natAbs false rest h]
    simp [Int.natAbs_of_nonneg hpos]
  · intro hneg
    rw [parseNumberTail_natDigits i.natAbs true rest h]
    congr 2
    rw [if_pos rfl]
    congr 1
    omega


/-! ### String escape round-trip -/

theorem psb_u (a b c d : Char) (rest : List Char) :
    parseStringBody ('\\' :: 'u' :: a :: b :: c :: d :: rest) =
      match hexVal a, hexVal b, hexVal c, hexVal d with
      | some va, some vb, some vc, some vd =>
        let n := ((va * 16 + vb) * 16 + vc) * 16 + vd
        if 0xd800 ≤ n ∧ n ≤ 0xdbff then
          match rest with
          | '\\' :: 'u' :: a2 :: b2 :: c2 :: d2 :: rest2 =>
            match hexVal a2, hexVal b2, hexVal c2, hexVal d2 with
            | some va2, some vb2, some vc2, some vd2 =>
              let m := ((va2 * 16 + vb2) * 16 + vc2) * 16 + vd2
              if 0xdc00 ≤ m ∧ m ≤ 0xdfff then
                match parseStringBody rest2 with
                | some (s, r) =>
                  some (Char.ofNat (0x10000 + (n - 0xd800) * 0x400 + (m - 0xdc00)) :: s, r)
                | none => none
              else none
            | _, _, _, _ => none
          | _ => none
        else if 0xdc00 ≤ n ∧ n ≤ 0xdfff then none
        else
          match parseStringBody rest with
          | some (s, r) => some (Char.ofNat n :: s, r)
          | none => none
      | _, _, _, _ => none := by
  simp only [parseStringBody]

theorem psb_esc_quote (T : List Char) : parseStringBody ('\\' :: '"' :: T)
    = match parseStringBody T with
      | some (s, r) => some ('"' :: s, r)
      | none => none := rfl

theorem psb_esc_backslash (T : List Char) : parseStringBody ('\\' :: '\\' :: T)
    = match parseStringBody T with
      | some (s, r) => some ('\\' :: s, r)
      | none => none := rfl

theorem psb_esc_n (T : List Char) : parseStringBody ('\\' :: 'n' :: T)
    = match parseStringBody T with
      | some (s, r) => some ('\n' :: s, r)
      | none => none := rfl

theorem psb_esc_r (T : List Char) : parseStringBody ('\\' :: 'r' :: T)
    = match parseStringBody T with
      | some (s, r) => some ('\r' :: s, r)
      | none => none := rfl

theorem psb_esc_t (T : List Char) : parseStringBody ('\\' :: 't' :: T)
    = match parseStringBody T with
      | some (s, r) => some ('\t' :: s, r)
      | none => none := rfl

theorem psb_esc_b (T : List Char) : parseStringBody ('\\' :: 'b' :: T)
    = match parseStringBody T with
      | some (s, r) => some ('\x08' :: s, r)
      | none => none := rfl

theorem psb_esc_f (T : List Char) : parseStringBody ('\\' :: 'f' :: T)
    = match parseStringBody T with
      | some (s, r) => some ('\x0c' :: s, r)
      | none => none := rfl

theorem psb_u_single (n : Nat) (hn : n < 0x10000)
    (hs1 : ¬(0xd800 ≤ n ∧ n ≤ 0xdbff)) (hs2 : ¬(0xdc00 ≤ n ∧ n ≤ 0xdfff))
    (T : List Char) :
    parseStringBody (uHex n ++ T)
      = Option.map (fun p => (Char.ofNat n :: p.1, p.2)) (parseStringBody T) := by
  rw [show uHex n ++ T = '\\' :: 'u' :: hexDigitChar (n / 4096 % 16) ::
      hexDigitChar (n / 256 % 16) :: hexDigitChar (n / 16 % 16) ::
      hexDigitChar (n % 16) :: T from rfl, psb_u]
  rw [hexVal_hexDigitChar (by omega : n / 4096 % 16 < 16),
    hexVal_hexDigitChar (by omega : n / 256 % 16 < 16),
    hexVal_hexDigitChar (by omega : n / 16 % 16 < 16),
    hexVal_hexDigitChar (by omega : n % 16 < 16)]
  try simp only
  rw [show ((n / 4096 % 16 * 16 + n / 256 % 16) * 16
      + n / 16 % 16) * 16 + n % 16 = n from by omega]
  rw [if_neg hs1, if_neg hs2]
  cases parseStringBody T with
  | none => rfl
  | some p => rfl

theorem psb_u_pair (q r : Nat) (hq : q < 0x400) (hr : r < 0x400) (T : List Char) :
    parseStringBody (uHex (0xd800 + q) ++ (uHex (0xdc00 + r) ++ T))
      = Option.map (fun p => (Char.ofNat (0x10000 + q * 0x400 + r) :: p.1, p.2))
          (parseStringBody T) := by
  rw [show uHex (0xd800 + q) ++ (uHex (0xdc00 + r) ++ T) =
      '\\' :: 'u' :: hexDigitChar ((0xd800 + q) / 4096 % 16) ::
        hexDigitChar ((0xd800 + q) / 256 % 16) :: hexDigitChar ((0xd800 + q) / 16 % 16) ::
        hexDigitChar ((0xd800 + q) % 16) ::
        ('\\' :: 'u' :: hexDigitChar ((0xdc00 + r) / 4096 % 16) ::
          hexDigitChar ((0xdc00 + r) / 256 % 16) :: hexDigitChar ((0xdc00 + r) / 16 % 16) ::
          hexDigitChar ((0xdc00 + r) % 16) :: T) from rfl, psb_u]
  rw [hexVal_hexDigitChar (by omega : (0xd800 + q) / 4096 % 16 < 16),
    hexVal_hexDigitChar (by omega : (0xd800 + q) / 256 % 16 < 16),
    hexVal_hexDigitChar (by omega : (0xd800 + q) / 16 % 16 < 16),
    hexVal_hexDigitChar (by omega : (0xd800 + q) % 16 < 16)]
  try simp only
  rw [show (((0xd800 + q) / 4096 % 16 * 16 + (0xd800 + q) / 256 % 16) * 16
      + (0xd800 + q) / 16 % 16) * 16 + (0xd800 + q) % 16 = 0xd800 + q from by omega]
  rw [if_pos (show 0xd800 ≤ 0xd800 + q ∧ 0xd800 + q ≤ 0xdbff from by omega)]
  try simp only
  rw [hexVal_hexDigitChar (by omega : (0xdc00 + r) / 4096 % 16 < 16),
    hexVal_hexDigitChar (by omega : (0xdc00 + r) / 256 % 16 < 16),
    hexVal_hexDigitChar (by omega : (0xdc00 + r) / 16 % 16 < 16),
    hexVal_hexDigitChar (by omega : (0xdc00 + r) % 16 < 16)]
  try simp only
  rw [show (((0xdc00 + r) / 4096 % 16 * 16 + (0xdc00 + r) / 256 % 16) * 16
      + (0xdc00 + r) / 16 % 16) * 16 + (0xdc00 + r) % 16 = 0xdc00 + r from by omega]
  rw [if_pos (show 0xdc00 ≤ 0xdc00 + r ∧ 0xdc00 + r ≤ 0xdfff from by omega)]
  rw [show 0x10000 + (0xd800 + q - 0xd800) * 0x400 + (0xdc00 + r - 0xdc00)
      = 0x10000 + q * 0x400 + r from by omega]
  cases parseStringBody T with
  | none => rfl
  | some p => rfl

theorem parseStringBody_escapeChar (c : Char) (T : List Char) :
    parseStringBody (escapeChar c ++ T)
      = Option.map (fun p => (c :: p.1, p.2)) (parseStringBody T) := by
  by_cases h1 : c = '"'
  · subst h1
    rw [show escapeChar '"' = ['\\', '"'] from by decide,
      show (['\\', '"'] : List Char) ++ T = '\\' :: '"' :: T from rfl, psb_esc_quote T]
    cases parseStringBody T with
    | none => rfl
    | some p => rfl
  · by_cases h2 : c = '\\'
    · subst h2
      rw [show escapeChar '\\' = ['\\', '\\'] from by decide,
        show (['\\', '\\'] : List Char) ++ T = '\\' :: '\\' :: T from rfl, psb_esc_backslash T]
      cases parseStringBody T with
      | none => rfl
      | some p => rfl
    · by_cases h3 : c = '\n'
      · subst h3
        rw [show escapeChar '\n' = ['\\', 'n'] from by decide,
          show (['\\', 'n'] : List Char) ++ T = '\\' :: 'n' :: T from rfl, psb_esc_n T]
        cases parseStringBody T with
        | none => rfl
        | some p => rfl
      · by_cases h4 : c = '\r'
        · subst h4
          rw [show escapeChar '\r' = ['\\', 'r'] from by decide,
            show (['\\', 'r'] : List Char) ++ T = '\\' :: 'r' :: T from rfl, psb_esc_r T]
          cases parseStringBody T with
          | none => rfl
          | some p => rfl
        · by_cases h5 : c = '\t'
          · subst h5
            rw [show escapeChar '\t' = ['\\', 't'] from by decide,
              show (['\\', 't'] : List Char) ++ T = '\\' :: 't' :: T from rfl, psb_esc_t T]
            cases parseStringBody T with
            | none => rfl
            | some p => rfl
          · by_cases h6 : c = '\x08'
            · subst h6
              rw [show escapeChar '\x08' = ['\\', 'b'] from by decide,
                show (['\\', 'b'] : List Char) ++ T = '\\' :: 'b' :: T from rfl, psb_esc_b T]
              cases parseStringBody T with
              | none => rfl
              | some p => rfl
            · by_cases h7 : c = '\x0c'
              · subst h7
                rw [show escapeChar '\x0c' = ['\\', 'f'] from by decide,
                  show (['\\', 'f'] : List Char) ++ T = '\\' :: 'f' :: T from rfl, psb_esc_f T]
                cases parseStringBody T with
                | none => rfl
                | some p => rfl
              · by_cases h8 : c.toNat < 0x20 ∨ 0x7e < c.toNat
                · have hesc : escapeChar c = uEscape c := by
                    simp only [escapeChar, if_neg h1, if_neg h2, if_neg h3, if_neg h4,
                      if_neg h5, if_neg h6, if_neg h7, if_pos h8]
                  rw [hesc]
                  have hval := char_not_surrogate c
                  by_cases hbig : c.toNat < 0x10000
                  · rw [show uEscape c = uHex c.toNat from by simp [uEscape, hbig]]
                    rw [psb_u_single c.toNat hbig
                      (by rcases hval with h | h <;> omega)
                      (by rcases hval with h | h <;> omega) T]
                    rw [Char.ofNat_toNat]
                  · have hcv : c.toNat < 0x110000 := by
                      rcases hval with h | h
                      · omega
                      · exact h.2
                    rw [show uEscape c ++ T = uHex (0xd800 + (c.toNat - 0x10000) / 0x400) ++
                        (uHex (0xdc00 + (c.toNat - 0x10000) % 0x400) ++ T) from by
                      simp [uEscape, hbig]]
                    rw [psb_u_pair ((c.toNat - 0x10000) / 0x400) ((c.toNat - 0x10000) % 0x400)
                      (by omega) (by omega) T]
                    rw [show 0x10000 + (c.toNat - 0x10000) / 0x400 * 0x400
                        + (c.toNat - 0x10000) % 0x400 = c.toNat from by omega]
                    rw [Char.ofNat_toNat]
                · have hesc : escapeChar c = [c] := by
                    simp only [escapeChar, if_neg h1, if_neg h2, if_neg h3, if_neg h4,
                      if_neg h5, if_neg h6, if_neg h7, if_neg h8]
                  rw [hesc, show ([c] : List Char) ++ T = c :: T from rfl]
                  have hctl : ¬c.toNat < 0x20 := fun hc => h8 (Or.inl hc)
                  rw [parseStringBody.eq_def]
                  split
                  · rename_i heq
                    exact absurd heq (by simp)
                  · rename_i heq
                    rw [List.cons.injEq] at heq
                    exact absurd heq.1 h2
                  · rename_i heq
                    rw [List.cons.injEq] at heq
                    exact absurd heq.1 h2
                  · rename_i c1 rest1 heq
                    rw [List.cons.injEq] at heq
                    obtain ⟨hc1, hr1⟩ := heq
                    subst hc1
                    subst hr1
                    rw [if_neg h1, if_neg h2, if_neg hctl]
                    cases parseStringBody T with
                    | none => rfl
                    | some p => rfl

theorem parseStringBody_escList : ∀ (s T : List Char),
    parseStringBody (escList s ++ '"' :: T) = some (s, T)
  | [], T => by
    simp only [escList, List.nil_append]
    simp [parseStringBody]
  | c :: s, T => by
    rw [show escList (c :: s) = escapeChar c ++ escList s from rfl, List.append_assoc,
      parseStringBody_escapeChar, parseStringBody_escList s T]
    rfl

/-! ### Heads of rendered values -/

theorem digitChar_props {d : Nat} (h : d < 10) :
    isDigitChar (digitChar d) = true ∧ isWsChar (digitChar d) = false ∧
    digitChar d ≠ '"' ∧ digitChar d ≠ '\\' ∧ digitChar d ≠ '\x7b' ∧ digitChar d ≠ '[' ∧
    digitChar d ≠ '-' ∧ digitChar d ≠ ']' ∧ digitChar d ≠ '\x7d' ∧
    digitChar d ≠ 'n' ∧ digitChar d ≠ 't' ∧ digitChar d ≠ 'f' := by
  interval_cases d <;> decide

theorem head_ok {c : Char} {l : List Char} (t : List Char) (he : l = c :: t)
    (h : isWsChar c = false ∧ c ≠ ']' ∧ c ≠ '\x7d') :
    ∃ c t, l = c :: t ∧ isWsChar c = false ∧ c ≠ ']' ∧ c ≠ '\x7d' :=
  ⟨c, t, he, h.1, h.2.1, h.2.2⟩

theorem dumpValue_head (v : Json) :
    ∃ c t, dumpValue v = c :: t ∧ isWsChar c = false ∧ c ≠ ']' ∧ c ≠ '\x7d' := by
  cases v with
  | null => refine head_ok _ rfl ?_; decide
  | bool b => cases b
              · refine head_ok _ rfl ?_; decide
              · refine head_ok _ rfl ?_; decide
  | int i =>
    by_cases hi : i < 0
    · refine @head_ok '-' _ (natDigits i.natAbs) ?_ ?_
      · rw [show dumpValue (.int i) = dumpInt i from rfl, dumpInt, if_pos hi]
      · decide
    · obtain ⟨d, t, he, hd, _⟩ := natDigits_head i.natAbs
      obtain ⟨_, hws, _, _, _, _, _, hrb, hrc, _, _, _⟩ := digitChar_props hd
      refine head_ok t ?_ ⟨hws, hrb, hrc⟩
      rw [show dumpValue (.int i) = dumpInt i from rfl, dumpInt, if_neg hi, he]
  | str s => refine head_ok _ rfl ?_; decide
  | arr xs => cases xs
              · refine head_ok _ rfl ?_; decide
              · refine head_ok _ rfl ?_; decide
  | obj kvs =>
    cases kvs with
    | nil => refine head_ok _ rfl ?_; decide
    | cons kv kvs =>
      obtain ⟨k, v⟩ := kv
      refine head_ok _ rfl ?_; decide

theorem skipWs_cons_not {c : Char} (h : isWsChar c = false) (l : List Char) :
    skipWs (c :: l) = c :: l := by
  simp [skipWs, h]

theorem skipWs_dump (v : Json) (X : List Char) :
    skipWs (dumpValue v ++ X) = dumpValue v ++ X := by
  obtain ⟨c, t, he, hws, _, _⟩ := dumpValue_head v
  rw [he, List.cons_append, skipWs_cons_not hws]

theorem dump_len_pos (v : Json) : 1 ≤ (dumpValue v).length := by
  obtain ⟨c, t, he, _, _, _⟩ := dumpValue_head v
  rw [he]
  simp

theorem dumpString_length (k : List Char) :
    (dumpString k).length = (escList k).length + 2 := by
  simp [dumpString]

theorem numTerm_elems (vs : List Json) (rest : List Char) :
    numTerm (dumpElems vs ++ ']' :: rest) = true := by
  cases vs with
  | nil => rfl
  | cons v vs => rfl

theorem numTerm_members (kvs : List (List Char × Json)) (rest : List Char) :
    numTerm (dumpMembers kvs ++ '\x7d' :: rest) = true := by
  cases kvs with
  | nil => rfl
  | cons kv kvs =>
    obtain ⟨k, v⟩ := kv
    rfl

/-! ### Object keys under `insertKV` -/

theorem insertKV_not_mem (k : List Char) (v : Json) : ∀ l : List (List Char × Json),
    k ∉ l.map Prod.fst → insertKV l k v = l ++ [(k, v)] := by
  intro l
  induction l with
  | nil => intro _; rfl
  | cons kv1 rest ih =>
    obtain ⟨k1, v1⟩ := kv1
    intro h
    have hne : k1 ≠ k := by
      intro he
      apply h
      rw [List.map_cons, he]
      exact List.mem_cons_self _ _
    have hm : k ∉ rest.map Prod.fst := by
      intro hm
      apply h
      rw [List.map_cons]
      exact List.mem_cons_of_mem _ hm
    rw [show insertKV ((k1, v1) :: rest) k v
        = if k1 = k then (k1, v) :: rest else (k1, v1) :: insertKV rest k v from rfl,
      if_neg hne, ih hm, List.cons_append]

theorem nodup_mid {A : List (List Char)} {k : List Char} {K : List (List Char)}
    (h : (A ++ k :: K).Nodup) : k ∉ A := by
  rw [List.nodup_append] at h
  intro hk
  exact h.2.2 hk (by simp)

/-! ### One-step unfoldings of the parser -/

theorem skipWs_space (l : List Char) : skipWs (' ' :: l) = skipWs l := by
  simp [skipWs, isWsChar]

theorem skipWs_dumpString (k X : List Char) :
    skipWs (dumpString k ++ X) = dumpString k ++ X := by
  rw [show dumpString k = '"' :: (escList k ++ ['"']) from rfl, List.cons_append,
    skipWs_cons_not (by decide)]

theorem parseElems_step {fuel : Nat} {input : List Char} {v : Json} {rest : List Char}
    (h : parseValue fuel input = some (v, rest)) (acc : List Json) :
    parseElems (fuel + 1) input acc = parseElemsSep fuel (skipWs rest) (acc ++ [v]) := by
  simp [parseElems, h]

theorem parseMembers_key {fuel : Nat} {cs k rest rest1 : List Char}
    (h : parseStringBody cs = some (k, rest)) (h2 : skipWs rest = ':' :: rest1)
    (acc : List (List Char × Json)) :
    parseMembers (fuel + 1) ('"' :: cs) acc = parseMemberValue fuel (skipWs rest1) acc k := by
  simp [parseMembers, h, h2]

theorem parseMemberValue_step {fuel : Nat} {input : List Char} {v : Json} {rest2 : List Char}
    (h : parseValue fuel input = some (v, rest2)) (acc : List (List Char × Json))
    (k : List Char) :
    parseMemberValue (fuel + 1) input acc k
      = parseMembersSep fuel (skipWs rest2) (insertKV acc k v) := by
  simp [parseMemberValue, h]

theorem parseValue_arr_go {fuel : Nat} {cs : List Char} (c0 : Char) (t0 : List Char)
    (hsk : skipWs cs = c0 :: t0) (hc : c0 ≠ ']') :
    parseValue (fuel + 1) ('[' :: cs)
      = match parseElems fuel (c0 :: t0) [] with
        | some (xs, r1) => some (.arr xs, r1)
        | none => none := by
  rw [show parseValue (fuel + 1) ('[' :: cs)
      = (match skipWs cs with
         | ']' :: r => some (.arr [], r)
         | r =>
           match parseElems fuel r [] with
           | some (xs, r1) => some (.arr xs, r1)
           | none => none) from by simp [parseValue]]
  rw [hsk]
  split
  · rename_i heq
    rw [List.cons.injEq] at heq
    exact absurd heq.1 hc
  · rfl

theorem parseValue_obj_go {fuel : Nat} {cs : List Char} (c0 : Char) (t0 : List Char)
    (hsk : skipWs cs = c0 :: t0) (hc : c0 ≠ '\x7d') :
    parseValue (fuel + 1) ('\x7b' :: cs)
      = match parseMembers fuel (c0 :: t0) [] with
        | some (kvs1, r1) => some (.obj kvs1, r1)
        | none => none := by
  rw [show parseValue (fuel + 1) ('\x7b' :: cs)
      = (match skipWs cs with
         | '\x7d' :: r => some (.obj [], r)
         | r =>
           match parseMembers fuel r [] with
           | some (kvs1, r1) => some (.obj kvs1, r1)
           | none => none) from by simp [parseValue]]
  rw [hsk]
  split
  · rename_i heq
    rw [List.cons.injEq] at heq
    exact absurd heq.1 hc
  · rfl

theorem parseElemsSep_rbracket (fuel : Nat) (r : List Char) (acc : List Json) :
    parseElemsSep fuel (']' :: r) acc = some (acc, r) := by
  cases fuel <;> rfl

theorem parseElemsSep_comma (fuel : Nat) (r : List Char) (acc : List Json) :
    parseElemsSep (fuel + 1) (',' :: r) acc = parseElems fuel (skipWs r) acc := rfl

theorem parseMembersSep_rbrace (fuel : Nat) (r : List Char) (acc : List (List Char × Json)) :
    parseMembersSep fuel ('\x7d' :: r) acc = some (acc, r) := by
  cases fuel <;> rfl

theorem parseMembersSep_comma (fuel : Nat) (r : List Char) (acc : List (List Char × Json)) :
    parseMembersSep (fuel + 1) (',' :: r) acc = parseMembers fuel (skipWs r) acc := rfl

/-! ### The serialize-then-parse round-trip -/

mutual
theorem rt_val : ∀ (v : Json) (fuel : Nat) (rest : List Char),
    JsonWF v → (dumpValue v).length < fuel → numTerm rest = true →
    parseValue fuel (dumpValue v ++ rest) = some (v, rest)
  | .null, fuel, rest, _, hf, _ => by
    cases fuel with
    | zero => exact absurd hf (by omega)
    | succ f => rfl
  | .bool true, fuel, rest, _, hf, _ => by
    cases fuel with
    | zero => exact absurd hf (by omega)
    | succ f => rfl
  | .bool false, fuel, rest, _, hf, _ => by
    cases fuel with
    | zero => exact absurd hf (by omega)
    | succ f => rfl
  | .int i, fuel, rest, _, hf, hr => by
    cases fuel with
    | zero => exact absurd hf (by omega)
    | succ f =>
      rw [show dumpValue (.int i) = dumpInt i from rfl]
      by_cases hi : i < 0
      · rw [dumpInt, if_pos hi, List.cons_append]
        rw [show parseValue (f + 1) ('-' :: (natDigits i.natAbs ++ rest))
            = parseNumberTail true (natDigits i.natAbs ++ rest) from by simp [parseValue]]
        exact (parseNumberTail_dumpInt i rest hr).2 hi
      · rw [dumpInt, if_neg hi]
        obtain ⟨d, t, he, hd, _⟩ := natDigits_head i.natAbs
        obtain ⟨hdig, _, hq, _, hbr, hlb, hmin, _, _, _, _, _⟩ := digitChar_props hd
        rw [he, List.cons_append]
        rw [show parseValue (f + 1) (digitChar d :: (t ++ rest))
            = parseNumberTail false (digitChar d :: (t ++ rest)) from by
          simp [parseValue, hq, hbr, hlb, hmin, hdig]]
        rw [← List.cons_append, ← he]
        exact (parseNumberTail_dumpInt i rest hr).1 (by omega)
  | .str s, fuel, rest, _, hf, _ => by
    cases fuel with
    | zero => exact absurd hf (by omega)
    | succ f =>
      rw [show dumpValue (.str s) ++ rest = '"' :: (escList s ++ '"' :: rest) from by
        rw [show dumpValue (.str s) = '"' :: (escList s ++ ['"']) from rfl]
        simp]
      rw [show parseValue (f + 1) ('"' :: (escList s ++ '"' :: rest))
          = match parseStringBody (escList s ++ '"' :: rest) with
            | some (s1, r) => some (.str s1, r)
            | none => none from by simp [parseValue]]
      rw [parseStringBody_escList]
  | .arr [], fuel, rest, _, hf, _ => by
    cases fuel with
    | zero => exact absurd hf (by omega)
    | succ f => rfl
  | .arr (v :: vs), fuel, rest, hw, hf, _ => by
    cases fuel with
    | zero => exact absurd hf (by omega)
    | succ f =>
      have hw2 : JsonWF v ∧ JsonWFList vs := hw
      have hpv := dump_len_pos v
      have hl : (dumpValue (.arr (v :: vs))).length
          = (dumpValue v).length + (dumpElems vs).length + 2 := by
        rw [show dumpValue (.arr (v :: vs))
            = '[' :: (dumpValue v ++ dumpElems vs ++ [']']) from rfl]
        simp only [List.length_cons, List.length_append, List.length_nil]
        try omega
      obtain ⟨c0, t0, he0, hws0, hnb0, hnc0⟩ := dumpValue_head v
      rw [show dumpValue (.arr (v :: vs)) ++ rest
          = '[' :: (dumpValue v ++ (dumpElems vs ++ (']' :: rest))) from by
        rw [show dumpValue (.arr (v :: vs))
            = '[' :: (dumpValue v ++ dumpElems vs ++ [']']) from rfl]
        simp]
      rw [parseValue_arr_go c0 (t0 ++ (dumpElems vs ++ (']' :: rest)))
        (by rw [skipWs_dump, he0, List.cons_append]) hnb0]
      rw [← List.cons_append, ← he0]
      rw [rt_elems v vs f [] rest hw2.1 hw2.2 (by omega)]
      try simp
  | .obj [], fuel, rest, _, hf, _ => by
    cases fuel with
    | zero => exact absurd hf (by omega)
    | succ f => rfl
  | .obj ((k, v) :: kvs), fuel, rest, hw, hf, _ => by
    cases fuel with
    | zero => exact absurd hf (by omega)
    | succ f =>
      have hw2 : (((k, v) :: kvs).map Prod.fst).Nodup ∧ JsonWFKVs ((k, v) :: kvs) := hw
      have hkv : JsonWF v ∧ JsonWFKVs kvs := hw2.2
      have hsk := dumpString_length k
      have hpv := dump_len_pos v
      have hl : (dumpValue (.obj ((k, v) :: kvs))).length
          = (dumpString k).length + (dumpValue v).length + (dumpMembers kvs).length + 4 := by
        rw [show dumpValue (.obj ((k, v) :: kvs))
            = '\x7b' :: (dumpString k ++ ':' :: ' ' :: dumpValue v
                ++ dumpMembers kvs ++ ['\x7d']) from rfl]
        simp only [List.length_cons, List.length_append, List.length_nil]
        try omega
      rw [show dumpValue (.obj ((k, v) :: kvs)) ++ rest
          = '\x7b' :: (dumpString k ++ (':' :: ' '
              :: (dumpValue v ++ (dumpMembers kvs ++ ('\x7d' :: rest))))) from by
        rw [show dumpValue (.obj ((k, v) :: kvs))
            = '\x7b' :: (dumpString k ++ ':' :: ' ' :: dumpValue v
                ++ dumpMembers kvs ++ ['\x7d']) from rfl]
        simp]
      rw [parseValue_obj_go '"' (escList k ++ ('"' :: (':' :: ' '
          :: (dumpValue v ++ (dumpMembers kvs ++ ('\x7d' :: rest))))))
        (by
          rw [show dumpString k = '"' :: (escList k ++ ['"']) from rfl, List.cons_append,
            skipWs_cons_not (by decide)]
          simp)
        (by decide)]
      rw [show ('"' : Char) :: (escList k ++ ('"' :: (':' :: ' '
            :: (dumpValue v ++ (dumpMembers kvs ++ ('\x7d' :: rest))))))
          = dumpString k ++ (':' :: ' '
            :: (dumpValue v ++ (dumpMembers kvs ++ ('\x7d' :: rest)))) from by
        rw [show dumpString k = '"' :: (escList k ++ ['"']) from rfl]
        simp]
      rw [rt_members k v kvs f [] rest hkv.1 hkv.2
        (by
          have h1 := hw2.1
          rw [List.map_cons] at h1
          rw [List.map_nil, List.nil_append]
          exact h1)
        (by omega)]
      try simp
termination_by v _ _ _ _ _ => sizeOf v

theorem rt_elems : ∀ (v : Json) (vs : List Json) (fuel : Nat) (acc : List Json)
    (rest : List Char),
    JsonWF v → JsonWFList vs →
    (dumpValue v).length + (dumpElems vs).length + 1 < fuel →
    parseElems fuel (dumpValue v ++ (dumpElems vs ++ (']' :: rest))) acc
      = some (acc ++ v :: vs, rest)
  | v, [], fuel, acc, rest, hwv, _, hf => by
    have h0 : (dumpElems ([] : List Json)).length = 0 := rfl
    cases fuel with
    | zero => exact absurd hf (by omega)
    | succ f =>
      rw [show dumpElems ([] : List Json) = [] from rfl, List.nil_append]
      rw [parseElems_step (rt_val v f (']' :: rest) hwv (by omega) rfl) acc]
      rw [skipWs_cons_not (by decide), parseElemsSep_rbracket]
  | v, v2 :: vs, fuel, acc, rest, hwv, hwl, hf => by
    have hwl2 : JsonWF v2 ∧ JsonWFList vs := hwl
    have hpv := dump_len_pos v
    have hpv2 := dump_len_pos v2
    have hle : (dumpElems (v2 :: vs)).length
        = (dumpValue v2).length + (dumpElems vs).length + 2 := by
      rw [show dumpElems (v2 :: vs) = ',' :: ' ' :: (dumpValue v2 ++ dumpElems vs) from rfl]
      simp only [List.length_cons, List.length_append]
      try omega
    cases fuel with
    | zero => exact absurd hf (by omega)
    | succ f =>
      rw [show dumpElems (v2 :: vs) ++ (']' :: rest)
          = ',' :: ' ' :: (dumpValue v2 ++ (dumpElems vs ++ (']' :: rest))) from by
        rw [show dumpElems (v2 :: vs) = ',' :: ' ' :: (dumpValue v2 ++ dumpElems vs) from rfl]
        simp]
      rw [parseElems_step (rt_val v f
        (',' :: ' ' :: (dumpValue v2 ++ (dumpElems vs ++ (']' :: rest))))
        hwv (by omega) rfl) acc]
      rw [skipWs_cons_not (by decide)]
      cases f with
      | zero => exact absurd hf (by omega)
      | succ g =>
        rw [parseElemsSep_comma]
        rw [skipWs_space, skipWs_dump]
        rw [rt_elems v2 vs g (acc ++ [v]) rest hwl2.1 hwl2.2 (by omega)]
        try simp
termination_by v vs _ _ _ _ _ _ => sizeOf v + sizeOf vs

theorem rt_members : ∀ (k : List Char) (v : Json) (kvs : List (List Char × Json))
    (fuel : Nat) (acc : List (List Char × Json)) (rest : List Char),
    JsonWF v → JsonWFKVs kvs →
    (acc.map Prod.fst ++ k :: kvs.map Prod.fst).Nodup →
    (dumpString k).length + (dumpValue v).length + (dumpMembers kvs).length + 1 < fuel →
    parseMembers fuel
        (dumpString k ++ (':' :: ' ' :: (dumpValue v ++ (dumpMembers kvs ++ ('\x7d' :: rest)))))
        acc
      = some (acc ++ (k, v) :: kvs, rest)
  | k, v, [], fuel, acc, rest, hwv, _, hnd, hf => by
    have h0 : (dumpMembers ([] : List (List Char × Json))).length = 0 := rfl
    have hsk := dumpString_length k
    have hpv := dump_len_pos v
    cases fuel with
    | zero => exact absurd hf (by omega)
    | succ f =>
      rw [show dumpMembers ([] : List (List Char × Json)) = [] from rfl, List.nil_append]
      rw [show dumpString k ++ (':' :: ' ' :: (dumpValue v ++ ('\x7d' :: rest)))
          = '"' :: (escList k ++ ('"' :: (':' :: ' '
              :: (dumpValue v ++ ('\x7d' :: rest))))) from by
        rw [show dumpString k = '"' :: (escList k ++ ['"']) from rfl]
        simp]
      rw [parseMembers_key (parseStringBody_escList k _) (skipWs_cons_not (by decide) _) acc]
      rw [skipWs_space, skipWs_dump]
      cases f with
      | zero => exact absurd hf (by omega)
      | succ g =>
        rw [parseMemberValue_step (rt_val v g ('\x7d' :: rest) hwv (by omega) rfl) acc k]
        rw [skipWs_cons_not (by decide)]
        rw [insertKV_not_mem k v acc (nodup_mid hnd), parseMembersSep_rbrace]
  | k, v, (k2, v2) :: kvs, fuel, acc, rest, hwv, hwkv, hnd, hf => by
    have hwkv2 : JsonWF v2 ∧ JsonWFKVs kvs := hwkv
    have hsk := dumpString_length k
    have hsk2 := dumpString_length k2
    have hpv := dump_len_pos v
    have hpv2 := dump_len_pos v2
    have hlm : (dumpMembers ((k2, v2) :: kvs)).length
        = (dumpString k2).length + (dumpValue v2).length + (dumpMembers kvs).length + 4 := by
      rw [show dumpMembers ((k2, v2) :: kvs)
          = ',' :: ' ' :: (dumpString k2 ++ ':' :: ' ' :: dumpValue v2
              ++ dumpMembers kvs) from rfl]
      simp only [List.length_cons, List.length_append]
      try omega
    cases fuel with
    | zero => exact absurd hf (by omega)
    | succ f =>
      rw [show dumpMembers ((k2, v2) :: kvs) ++ ('\x7d' :: rest)
          = ',' :: ' ' :: (dumpString k2 ++ (':' :: ' '
              :: (dumpValue v2 ++ (dumpMembers kvs ++ ('\x7d' :: rest))))) from by
        rw [show dumpMembers ((k2, v2) :: kvs)
            = ',' :: ' ' :: (dumpString k2 ++ ':' :: ' ' :: dumpValue v2
                ++ dumpMembers kvs) from rfl]
        simp]
      rw [show dumpString k ++ (':' :: ' ' :: (dumpValue v
            ++ (',' :: ' ' :: (dumpString k2 ++ (':' :: ' '
              :: (dumpValue v2 ++ (dumpMembers kvs ++ ('\x7d' :: rest))))))))
          = '"' :: (escList k ++ ('"' :: (':' :: ' ' :: (dumpValue v
            ++ (',' :: ' ' :: (dumpString k2 ++ (':' :: ' '
              :: (dumpValue v2 ++ (dumpMembers kvs ++ ('\x7d' :: rest)))))))))) from by
        rw [show dumpString k = '"' :: (escList k ++ ['"']) from rfl]
        simp]
      rw [parseMembers_key (parseStringBody_escList k _) (skipWs_cons_not (by decide) _) acc]
      rw [skipWs_space, skipWs_dump]
      cases f with
      | zero => exact absurd hf (by omega)
      | succ g =>
        rw [parseMemberValue_step (rt_val v g
          (',' :: ' ' :: (dumpString k2 ++ (':' :: ' '
            :: (dumpValue v2 ++ (dumpMembers kvs ++ ('\x7d' :: rest))))))
          hwv (by omega) rfl) acc k]
        rw [skipWs_cons_not (by decide)]
        rw [insertKV_not_mem k v acc (nodup_mid hnd)]
        cases g with
        | zero => exact absurd hf (by omega)
        | succ h =>
          rw [parseMembersSep_comma]
          rw [skipWs_space, skipWs_dumpString]
          rw [rt_members k2 v2 kvs h (acc ++ [(k, v)]) rest hwkv2.1 hwkv2.2
            (by
              have heq : ((acc ++ [(k, v)]).map Prod.fst ++ k2 :: kvs.map Prod.fst)
                  = acc.map Prod.fst ++ k :: (k2 :: kvs.map Prod.fst) := by
                simp
              rw [heq]
              rw [List.map_cons] at hnd
              exact hnd)
            (by omega)]
          try simp
termination_by k v kvs _ _ _ _ _ _ _ => sizeOf v + sizeOf kvs
end

/-! ### Every parsed value is well-formed -/

theorem wfList_append : ∀ {l1 l2 : List Json},
    JsonWFList l1 → JsonWFList l2 → JsonWFList (l1 ++ l2)
  | [], _, _, h2 => h2
  | v :: vs, l2, h1, h2 => by
    have h1c : JsonWF v ∧ JsonWFList vs := h1
    exact show JsonWF v ∧ JsonWFList (vs ++ l2) from ⟨h1c.1, wfList_append h1c.2 h2⟩

theorem wfKVs_insertKV : ∀ {l : List (List Char × Json)} {v : Json} (k : List Char),
    JsonWFKVs l → JsonWF v → JsonWFKVs (insertKV l k v)
  | [], v, k, _, hv => show JsonWF v ∧ True from ⟨hv, trivial⟩
  | (k1, v1) :: rest, v, k, hl, hv => by
    have hlc : JsonWF v1 ∧ JsonWFKVs rest := hl
    rw [show insertKV ((k1, v1) :: rest) k v
        = if k1 = k then (k1, v) :: rest else (k1, v1) :: insertKV rest k v from rfl]
    by_cases hk : k1 = k
    · rw [if_pos hk]
      exact show JsonWF v ∧ JsonWFKVs rest from ⟨hv, hlc.2⟩
    · rw [if_neg hk]
      exact show JsonWF v1 ∧ JsonWFKVs (insertKV rest k v) from
        ⟨hlc.1, wfKVs_insertKV k hlc.2 hv⟩

theorem mem_keys_insertKV : ∀ {l : List (List Char × Json)} {v : Json} {k x : List Char},
    x ∈ (insertKV l k v).map Prod.fst → x ∈ l.map Prod.fst ∨ x = k
  | [], v, k, x, h => by
    right
    rw [show insertKV [] k v = [(k, v)] from rfl, List.map_cons, List.map_nil] at h
    rcases List.mem_cons.mp h with h | h
    · exact h
    · exact absurd h (List.not_mem_nil x)
  | (k1, v1) :: rest, v, k, x, h => by
    by_cases hk : k1 = k
    · rw [show insertKV ((k1, v1) :: rest) k v = (k1, v) :: rest from by
        rw [show insertKV ((k1, v1) :: rest) k v
            = if k1 = k then (k1, v) :: rest else (k1, v1) :: insertKV rest k v from rfl,
          if_pos hk]] at h
      left
      simpa using h
    · rw [show insertKV ((k1, v1) :: rest) k v = (k1, v1) :: insertKV rest k v from by
        rw [show insertKV ((k1, v1) :: rest) k v
            = if k1 = k then (k1, v) :: rest else (k1, v1) :: insertKV rest k v from rfl,
          if_neg hk]] at h
      rw [List.map_cons, List.mem_cons] at h
      rcases h with h | h
      · left
        rw [List.map_cons, List.mem_cons]
        exact Or.inl h
      · rcases mem_keys_insertKV h with h2 | h2
        · left
          rw [List.map_cons, List.mem_cons]
          exact Or.inr h2
        · right
          exact h2

theorem nodup_insertKV : ∀ {l : List (List Char × Json)} {v : Json} (k : List Char),
    (l.map Prod.fst).Nodup → ((insertKV l k v).map Prod.fst).Nodup
  | [], v, k, _ => by
    rw [show insertKV [] k v = [(k, v)] from rfl]
    exact List.nodup_singleton k
  | (k1, v1) :: rest, v, k, h => by
    rw [List.map_cons, List.nodup_cons] at h
    by_cases hk : k1 = k
    · rw [show insertKV ((k1, v1) :: rest) k v = (k1, v) :: rest from by
        rw [show insertKV ((k1, v1) :: rest) k v
            = if k1 = k then (k1, v) :: rest else (k1, v1) :: insertKV rest k v from rfl,
          if_pos hk]]
      rw [List.map_cons, List.nodup_cons]
      exact h
    · rw [show insertKV ((k1, v1) :: rest) k v = (k1, v1) :: insertKV rest k v from by
        rw [show insertKV ((k1, v1) :: rest) k v
            = if k1 = k then (k1, v) :: rest else (k1, v1) :: insertKV rest k v from rfl,
          if_neg hk]]
      rw [List.map_cons, List.nodup_cons]
      constructor
      · intro hmem
        rcases mem_keys_insertKV hmem with h2 | h2
        · exact h.1 h2
        · exact hk h2
      · exact nodup_insertKV k h.2

theorem parseNumberTail_wf : ∀ (neg : Bool) (l : List Char) (v : Json) (rest : List Char),
    parseNumberTail neg l = some (v, rest) → JsonWF v
  | _, [], _, _, h => by simp [parseNumberTail] at h
  | neg, c :: cs, v, rest, h => by
    simp only [parseNumberTail] at h
    split_ifs at h
    all_goals
      rw [Option.some.injEq, Prod.mk.injEq] at h
      rw [← h.1]
      exact trivial

set_option maxHeartbeats 1000000 in
mutual
theorem parseValue_wf : ∀ (fuel : Nat) (input : List Char) (v : Json) (rest : List Char),
    parseValue fuel input = some (v, rest) → JsonWF v
  | 0, input, v, rest, h => by simp [parseValue] at h
  | _ + 1, [], v, rest, h => by simp [parseValue] at h
  | fuel + 1, c :: cs, v, rest, h => by
    simp only [parseValue] at h
    split_ifs at h with h1 h2 h3 h4 h5 h6 h7 h8
    · split at h
      · rw [Option.some.injEq, Prod.mk.injEq] at h
        rw [← h.1]
        exact trivial
      · simp at h
    · split at h
      · rw [Option.some.injEq, Prod.mk.injEq] at h
        rw [← h.1]
        exact show (([] : List (List Char × Json)).map Prod.fst).Nodup ∧ True from
          ⟨List.nodup_nil, trivial⟩
      · split at h
        · rename_i kvs1 r1 heq
          rw [Option.some.injEq, Prod.mk.injEq] at h
          rw [← h.1]
          have hw := parseMembers_wf fuel _ [] kvs1 r1 heq trivial List.nodup_nil
          exact show ((kvs1.map Prod.fst).Nodup ∧ JsonWFKVs kvs1) from ⟨hw.2, hw.1⟩
        · simp at h
    · split at h
      · rw [Option.some.injEq, Prod.mk.injEq] at h
        rw [← h.1]
        exact trivial
      · split at h
        · rename_i xs1 r1 heq
          rw [Option.some.injEq, Prod.mk.injEq] at h
          rw [← h.1]
          exact show JsonWFList xs1 from parseElems_wf fuel _ [] xs1 r1 heq trivial
        · simp at h
    · exact parseNumberTail_wf true cs v rest h
    · exact parseNumberTail_wf false (c :: cs) v rest h
    · split at h
      · rw [Option.some.injEq, Prod.mk.injEq] at h
        rw [← h.1]
        exact trivial
      · simp at h
    · split at h
      · rw [Option.some.injEq, Prod.mk.injEq] at h
        rw [← h.1]
        exact trivial
      · simp at h
    · split at h
      · rw [Option.some.injEq, Prod.mk.injEq] at h
        rw [← h.1]
        exact trivial
      · simp at h
termination_by fuel _ _ _ _ => fuel

theorem parseElems_wf : ∀ (fuel : Nat) (input : List Char) (acc out : List Json)
    (rest : List Char),
    parseElems fuel input acc = some (out, rest) → JsonWFList acc → JsonWFList out
  | 0, _, _, _, _, h, _ => by simp [parseElems] at h
  | fuel + 1, input, acc, out, rest, h, hacc => by
    simp only [parseElems] at h
    split at h
    · simp at h
    · rename_i v1 r1 heq
      exact parseElemsSep_wf fuel (skipWs r1) (acc ++ [v1]) out rest h
        (wfList_append hacc
          (show JsonWF v1 ∧ True from ⟨parseValue_wf fuel input v1 r1 heq, trivial⟩))
termination_by fuel _ _ _ _ _ _ => fuel

theorem parseElemsSep_wf : ∀ (fuel : Nat) (input : List Char) (acc out : List Json)
    (rest : List Char),
    parseElemsSep fuel input acc = some (out, rest) → JsonWFList acc → JsonWFList out
  | fuel, input, acc, out, rest, h, hacc => by
    rw [parseElemsSep.eq_def] at h
    split at h
    · rw [Option.some.injEq, Prod.mk.injEq] at h
      rw [← h.1]
      exact hacc
    · exact parseElems_wf _ _ _ _ _ h hacc
    · simp at h
termination_by fuel _ _ _ _ _ _ => fuel

theorem parseMembers_wf : ∀ (fuel : Nat) (input : List Char)
    (acc out : List (List Char × Json)) (rest : List Char),
    parseMembers fuel input acc = some (out, rest) → JsonWFKVs acc →
    (acc.map Prod.fst).Nodup → JsonWFKVs out ∧ (out.map Prod.fst).Nodup
  | 0, _, _, _, _, h, _, _ => by simp [parseMembers] at h
  | fuel + 1, input, acc, out, rest, h, hacc, hnd => by
    simp only [parseMembers] at h
    split at h
    · split at h
      · simp at h
      · rename_i k rest0 heq0
        split at h
        · rename_i rest1 heq1
          exact parseMemberValue_wf fuel (skipWs rest1) acc k out rest h hacc hnd
        · simp at h
    · simp at h
termination_by fuel _ _ _ _ _ _ _ => fuel

theorem parseMemberValue_wf : ∀ (fuel : Nat) (input : List Char)
    (acc : List (List Char × Json)) (k : List Char) (out : List (List Char × Json))
    (rest : List Char),
    parseMemberValue fuel input acc k = some (out, rest) → JsonWFKVs acc →
    (acc.map Prod.fst).Nodup → JsonWFKVs out ∧ (out.map Prod.fst).Nodup
  | 0, _, _, _, _, _, h, _, _ => by simp [parseMemberValue] at h
  | fuel + 1, input, acc, k, out, rest, h, hacc, hnd => by
    simp only [parseMemberValue] at h
    split at h
    · simp at h
    · rename_i v1 rest2 heq
      exact parseMembersSep_wf fuel (skipWs rest2) (insertKV acc k v1) out rest h
        (wfKVs_insertKV k hacc (parseValue_wf fuel input v1 rest2 heq))
        (nodup_insertKV k hnd)
termination_by fuel _ _ _ _ _ _ _ _ => fuel

theorem parseMembersSep_wf : ∀ (fuel : Nat) (input : List Char)
    (acc out : List (List Char × Json)) (rest : List Char),
    parseMembersSep fuel input acc = some (out, rest) → JsonWFKVs acc →
    (acc.map Prod.fst).Nodup → JsonWFKVs out ∧ (out.map Prod.fst).Nodup
  | fuel, input, acc, out, rest, h, hacc, hnd => by
    rw [parseMembersSep.eq_def] at h
    split at h
    · rw [Option.some.injEq, Prod.mk.injEq] at h
      rw [← h.1]
      exact ⟨hacc, hnd⟩
    · exact parseMembers_wf _ _ _ _ _ h hacc hnd
    · simp at h
termination_by fuel _ _ _ _ _ _ _ => fuel
end

/-- Everything `json.loads` returns is well-formed: objects are Python
dicts, so their keys are pairwise distinct. -/
theorem json_loads_wf {s : List Char} {v : Json} (h : json_loads s = some v) :
    JsonWF v := by
  rw [show json_loads s = (match parseValue ((skipWs s).length + 1) (skipWs s) with
      | some (w, r) => if skipWs r = [] then some w else none
      | none => none) from rfl] at h
  split at h
  · rename_i w r heq
    split_ifs at h
    rw [Option.some.injEq] at h
    rw [← h]
    exact parseValue_wf _ _ _ _ heq
  · simp at h

/-- `json.dumps` of a well-formed value parses back to the same value. -/
theorem json_loads_dumps (v : Json) (h : JsonWF v) :
    json_loads (json_dumps v) = some v := by
  have h1 : skipWs (dumpValue v) = dumpValue v := by
    have h2 := skipWs_dump v []
    simpa using h2
  rw [show json_loads (json_dumps v)
      = (match parseValue ((skipWs (dumpValue v)).length + 1) (skipWs (dumpValue v)) with
         | some (w, r) => if skipWs r = [] then some w else none
         | none => none) from rfl]
  rw [h1]
  have h2 := rt_val v ((dumpValue v).length + 1) [] h (by omega) rfl
  rw [List.append_nil] at h2
  rw [h2]
  rfl

/-- The spec's §4.1 round-trip: whatever came out of `json.loads` survives
`json.dumps` followed by `json.loads` unchanged. -/
theorem json_roundtrip {s : List Char} {p : Json} (h : json_loads s = some p) :
    json_loads (json_dumps p) = some p :=
  json_loads_dumps p (json_loads_wf h)

/-! ### Request abbreviations and concrete fixtures -/

/-- The run-job request `trigger_scan_worker` builds: fully qualified
`scanner-worker` name, single `JOB_DATA` override. -/
def scan_request (proj region : List Char) (payload : Json) : RunJobRequest :=
  { name := "projects/".toList ++ proj ++ "/locations/".toList ++ region ++
      "/jobs/scanner-worker".toList
    env := [("JOB_DATA".toList, json_dumps payload)] }

/-- The run-job request `trigger_report_generator` builds: fully qualified
`report-generator` name, single `REPORT_REQUEST` override. -/
def report_request (proj region : List Char) (payload : Json) : RunJobRequest :=
  { name := "projects/".toList ++ proj ++ "/locations/".toList ++ region ++
      "/jobs/report-generator".toList
    env := [("REPORT_REQUEST".toList, json_dumps payload)] }

/-- Scenario A event body: the JSON text from the spec's §8. -/
def bodyA : List Char := "\x7b\"url\": \"https://example.com\", \"depth\": 2\x7d".toList

/-- Scenario A decoded payload. -/
def payloadA : Json :=
  .obj [("url".toList, .str "https://example.com".toList), ("depth".toList, .int 2)]

/-- Scenario A inbound event. -/
def evA : CloudEvent := ⟨some bodyA⟩

/-- An event whose body is not valid JSON (spec §8, scenario C). -/
def evBad : CloudEvent := ⟨some "not-json".toList⟩

/-- A fully populated configuration. -/
def cfgTest : Config := ⟨some "my-project".toList, some "us-central1".toList⟩

/-- A configuration with both variables absent. -/
def cfgNone : Config := ⟨none, none⟩

/-- A Job Execution Service that accepts every request. -/
def runJobOk : RunJobRequest → Except Unit Nat := fun _ => Except.ok 7

/-- A Job Execution Service that rejects every request. -/
def runJobFail : RunJobRequest → Except Unit Nat := fun _ => Except.error ()

/-! ### Unfolding the dispatchers on the success path -/

theorem trigger_scan_worker_run {E H : Type} (env : Config)
    (run_job : RunJobRequest → Except E H) (cloud_event : CloudEvent)
    {body : List Char} {payload : Json} {proj region : List Char}
    (hb : cloud_event.message_data = some body)
    (hp : json_loads body = some payload)
    (h1 : env.PROJECT_ID = some proj) (h2 : env.REGION = some region) :
    trigger_scan_worker env run_job cloud_event
      = match run_job (scan_request proj region payload) with
        | .error e => (.error (.ExecutionTriggerError e), [scan_request proj region payload])
        | .ok operation => (.ok operation, [scan_request proj region payload]) := by
  simp only [trigger_scan_worker, hb, hp, h1, h2, scan_request]

theorem trigger_report_generator_run {E H : Type} (env : Config)
    (run_job : RunJobRequest → Except E H) (cloud_event : CloudEvent)
    {body : List Char} {payload : Json} {proj region : List Char}
    (hb : cloud_event.message_data = some body)
    (hp : json_loads body = some payload)
    (h1 : env.PROJECT_ID = some proj) (h2 : env.REGION = some region) :
    trigger_report_generator env run_job cloud_event
      = match run_job (report_request proj region payload) with
        | .error e => (.error (.ExecutionTriggerError e), [report_request proj region payload])
        | .ok operation => (.ok operation, [report_request proj region payload]) := by
  simp only [trigger_report_generator, hb, hp, h1, h2, report_request]

/-! ### The claims -/

/-- C1: for every inbound event whose body is valid JSON (and with the
project and region configured), `trigger_scan_worker` issues exactly one
run-job call, addressed to `scanner-worker` under the configured project and
region, with exactly one environment override, `JOB_DATA`, whose string
value JSON-decodes to a value deeply equal to the decoded input payload. -/
theorem scan_dispatch_valid_json {E H : Type} (env : Config)
    (run_job : RunJobRequest → Except E H) (cloud_event : CloudEvent)
    (body : List Char) (payload : Json) (proj region : List Char)
    (hb : cloud_event.message_data = some body)
    (hp : json_loads body = some payload)
    (h1 : env.PROJECT_ID = some proj) (h2 : env.REGION = some region) :
    (trigger_scan_worker env run_job cloud_event).2 = [scan_request proj region payload] ∧
    (scan_request proj region payload).name
      = "projects/".toList ++ proj ++ "/locations/".toList ++ region ++
          "/jobs/scanner-worker".toList ∧
    (scan_request proj region payload).env
      = [("JOB_DATA".toList, json_dumps payload)] ∧
    json_loads (json_dumps payload) = some payload := by
  refine ⟨?_, rfl, rfl, json_roundtrip hp⟩
  rw [trigger_scan_worker_run env run_job cloud_event hb hp h1 h2]
  split <;> rfl

theorem scan_dispatch_valid_json_witness :
    (trigger_scan_worker cfgTest runJobOk evA).2
        = [scan_request "my-project".toList "us-central1".toList payloadA] ∧
    (scan_request "my-project".toList "us-central1".toList payloadA).name
      = "projects/".toList ++ "my-project".toList ++ "/locations/".toList ++
          "us-central1".toList ++ "/jobs/scanner-worker".toList ∧
    (scan_request "my-project".toList "us-central1".toList payloadA).env
      = [("JOB_DATA".toList, json_dumps payloadA)] ∧
    json_loads (json_dumps payloadA) = some payloadA :=
  scan_dispatch_valid_json cfgTest runJobOk evA bodyA payloadA
    "my-project".toList "us-central1".toList rfl rfl rfl rfl

/-- C2 (code bug): the spec says the inbound `data` field holds
base64-encoded JSON which the dispatcher decodes before parsing; the source
passes the field to `json.loads` directly without base64-decoding, so an
event whose field holds the base64 encoding of the valid JSON document
`{"a": 1}` makes the dispatcher fail with the decode error instead of
producing the payload — even with full configuration and a willing Job
Execution Service. -/
theorem scan_base64_body_is_not_decoded :
    b64encode "\x7b\"a\": 1\x7d".toList = "eyJhIjogMX0=".toList ∧
    json_loads "\x7b\"a\": 1\x7d".toList = some (.obj [("a".toList, .int 1)]) ∧
    trigger_scan_worker cfgTest runJobOk ⟨some (b64encode "\x7b\"a\": 1\x7d".toList)⟩
      = (.error .DecodeError, []) :=
  ⟨rfl, rfl, rfl⟩

/-- C3: for every inbound event whose body is missing or not valid JSON,
both dispatchers make zero run-job calls and return `DecodeError`, which
propagates to the caller. -/
theorem dispatch_invalid_body {E H : Type} (env : Config)
    (run_job : RunJobRequest → Except E H) (cloud_event : CloudEvent)
    (hbad : cloud_event.message_data = none ∨
      ∃ body, cloud_event.message_data = some body ∧ json_loads body = none) :
    trigger_scan_worker env run_job cloud_event = (.error .DecodeError, []) ∧
    trigger_report_generator env run_job cloud_event = (.error .DecodeError, []) := by
  rcases hbad with h | ⟨body, hb, hp⟩
  · constructor <;> simp [trigger_scan_worker, trigger_report_generator, h]
  · constructor <;> simp [trigger_scan_worker, trigger_report_generator, hb, hp]

theorem dispatch_invalid_body_witness :
    trigger_scan_worker cfgTest runJobOk evBad = (.error .DecodeError, []) ∧
    trigger_report_generator cfgTest runJobOk evBad = (.error .DecodeError, []) :=
  dispatch_invalid_body cfgTest runJobOk evBad (Or.inr ⟨"not-json".toList, rfl, rfl⟩)

/-- C4 counterexample: the claim says every invocation with absent
configuration fails with `ConfigurationError`; on an event whose body is
not valid JSON the dispatcher fails with the decode error instead, even
though the project identifier is absent. -/
theorem config_error_counterexample :
    cfgNone.PROJECT_ID = none ∧
    (trigger_scan_worker cfgNone runJobOk evBad).1
      ≠ Except.error DispatchError.ConfigurationError := by
  refine ⟨rfl, ?_⟩
  intro h
  rw [show (trigger_scan_worker cfgNone runJobOk evBad).1
        = Except.error DispatchError.DecodeError from rfl] at h
  exact DispatchError.noConfusion (Except.error.inj h)

/-- C4 (amended): an invocation with absent project or region configuration
never issues a run-job call, and — when the event body does decode — it
fails with `ConfigurationError`. -/
theorem config_error_amended {E H : Type} (env : Config)
    (run_job : RunJobRequest → Except E H) (cloud_event : CloudEvent)
    (hmiss : env.PROJECT_ID = none ∨ env.REGION = none) :
    ((trigger_scan_worker env run_job cloud_event).2 = [] ∧
     (trigger_report_generator env run_job cloud_event).2 = []) ∧
    (∀ body payload, cloud_event.message_data = some body →
      json_loads body = some payload →
      trigger_scan_worker env run_job cloud_event = (.error .ConfigurationError, []) ∧
      trigger_report_generator env run_job cloud_event = (.error .ConfigurationError, [])) := by
  constructor
  · rcases hm : cloud_event.message_data with _ | body
    · constructor <;> simp [trigger_scan_worker, trigger_report_generator, hm]
    · rcases hp : json_loads body with _ | payload
      · constructor <;> simp [trigger_scan_worker, trigger_report_generator, hm, hp]
      · rcases hmiss with h | h
        · constructor <;> simp [trigger_scan_worker, trigger_report_generator, hm, hp, h]
        · rcases hpr : env.PROJECT_ID with _ | proj
          · constructor <;>
              simp [trigger_scan_worker, trigger_report_generator, hm, hp, hpr]
          · constructor <;>
              simp [trigger_scan_worker, trigger_report_generator, hm, hp, hpr, h]
  · intro body payload hm hp
    rcases hmiss with h | h
    · constructor <;> simp [trigger_scan_worker, trigger_report_generator, hm, hp, h]
    · rcases hpr : env.PROJECT_ID with _ | proj
      · constructor <;> simp [trigger_scan_worker, trigger_report_generator, hm, hp, hpr]
      · constructor <;> simp [trigger_scan_worker, trigger_report_generator, hm, hp, hpr, h]

theorem config_error_amended_witness :
    ((trigger_scan_worker cfgNone runJobOk evA).2 = [] ∧
     (trigger_report_generator cfgNone runJobOk evA).2 = []) ∧
    (trigger_scan_worker cfgNone runJobOk evA = (.error .ConfigurationError, []) ∧
     trigger_report_generator cfgNone runJobOk evA = (.error .ConfigurationError, [])) :=
  ⟨(config_error_amended cfgNone runJobOk evA (Or.inl rfl)).1,
   (config_error_amended cfgNone runJobOk evA (Or.inl rfl)).2 bodyA payloadA rfl rfl⟩

/-- C5: when the remote run-job call fails, each dispatcher propagates
`ExecutionTriggerError` carrying the remote failure unchanged, after exactly
one run-job call — no second call, no local retry. -/
theorem execution_error_propagates {E H : Type} (env : Config)
    (run_job : RunJobRequest → Except E H) (cloud_event : CloudEvent)
    (body : List Char) (payload : Json) (proj region : List Char) (e : E)
    (hb : cloud_event.message_data = some body)
    (hp : json_loads body = some payload)
    (h1 : env.PROJECT_ID = some proj) (h2 : env.REGION = some region)
    (hescan : run_job (scan_request proj region payload) = .error e)
    (hereport : run_job (report_request proj region payload) = .error e) :
    trigger_scan_worker env run_job cloud_event
      = (.error (.ExecutionTriggerError e), [scan_request proj region payload]) ∧
    trigger_report_generator env run_job cloud_event
      = (.error (.ExecutionTriggerError e), [report_request proj region payload]) := by
  constructor
  · rw [trigger_scan_worker_run env run_job cloud_event hb hp h1 h2, hescan]
  · rw [trigger_report_generator_run env run_job cloud_event hb hp h1 h2, hereport]

theorem execution_error_propagates_witness :
    trigger_scan_worker cfgTest runJobFail evA
      = (.error (.ExecutionTriggerError ()),
         [scan_request "my-project".toList "us-central1".toList payloadA]) ∧
    trigger_report_generator cfgTest runJobFail evA
      = (.error (.ExecutionTriggerError ()),
         [report_request "my-project".toList "us-central1".toList payloadA]) :=
  execution_error_propagates cfgTest runJobFail evA bodyA payloadA
    "my-project".toList "us-central1".toList () rfl rfl rfl rfl rfl rfl

theorem scan_request_as_dispatch (proj region : List Char) (payload : Json) :
    scan_request proj region payload
      = { name := "projects/".toList ++ proj ++ "/locations/".toList ++ region ++
            "/jobs/".toList ++ "scanner-worker".toList,
          env := [("JOB_DATA".toList, json_dumps payload)] } := by
  simp only [scan_request, List.append_assoc]
  rfl

theorem report_request_as_dispatch (proj region : List Char) (payload : Json) :
    report_request proj region payload
      = { name := "projects/".toList ++ proj ++ "/locations/".toList ++ region ++
            "/jobs/".toList ++ "report-generator".toList,
          env := [("REPORT_REQUEST".toList, json_dumps payload)] } := by
  simp only [report_request, List.append_assoc]
  rfl

theorem dispatch_run {E H : Type} (job_short_name env_key : List Char) (env : Config)
    (run_job : RunJobRequest → Except E H) (cloud_event : CloudEvent)
    {body : List Char} {payload : Json} {proj region : List Char}
    (req : RunJobRequest)
    (hb : cloud_event.message_data = some body)
    (hp : json_loads body = some payload)
    (h1 : env.PROJECT_ID = some proj) (h2 : env.REGION = some region)
    (hreq : req = { name := "projects/".toList ++ proj ++ "/locations/".toList ++ region ++
                      "/jobs/".toList ++ job_short_name,
                    env := [(env_key, json_dumps payload)] }) :
    dispatch job_short_name env_key env run_job cloud_event
      = match run_job req with
        | .error e => (.error (.ExecutionTriggerError e), [req])
        | .ok operation => (.ok operation, [req]) := by
  subst hreq
  simp only [dispatch, hb, hp, h1, h2]

/-- C6: each entry point coincides, on every input, with the spec's single
parameterized dispatch routine at its own `(job name, environment key)`
pair — `scanner-worker`/`JOB_DATA` and `report-generator`/`REPORT_REQUEST`. -/
theorem dispatchers_refine_parameterized {E H : Type} (env : Config)
    (run_job : RunJobRequest → Except E H) (cloud_event : CloudEvent) :
    trigger_scan_worker env run_job cloud_event
      = dispatch "scanner-worker".toList "JOB_DATA".toList env run_job cloud_event ∧
    trigger_report_generator env run_job cloud_event
      = dispatch "report-generator".toList "REPORT_REQUEST".toList env run_job cloud_event := by
  constructor
  · rcases hm : cloud_event.message_data with _ | raw
    · simp [trigger_scan_worker, dispatch, hm]
    · rcases hp : json_loads raw with _ | payload
      · simp [trigger_scan_worker, dispatch, hm, hp]
      · rcases hpr : env.PROJECT_ID with _ | proj
        · simp [trigger_scan_worker, dispatch, hm, hp, hpr]
        · rcases hrg : env.REGION with _ | region
          · simp [trigger_scan_worker, dispatch, hm, hp, hpr, hrg]
          · rw [trigger_scan_worker_run env run_job cloud_event hm hp hpr hrg,
                dispatch_run "scanner-worker".toList "JOB_DATA".toList env run_job
                  cloud_event (scan_request proj region payload) hm hp hpr hrg
                  (scan_request_as_dispatch proj region payload)]
  · rcases hm : cloud_event.message_data with _ | raw
    · simp [trigger_report_generator, dispatch, hm]
    · rcases hp : json_loads raw with _ | payload
      · simp [trigger_report_generator, dispatch, hm, hp]
      · rcases hpr : env.PROJECT_ID with _ | proj
        · simp [trigger_report_generator, dispatch, hm, hp, hpr]
        · rcases hrg : env.REGION with _ | region
          · simp [trigger_report_generator, dispatch, hm, hp, hpr, hrg]
          · rw [trigger_report_generator_run env run_job cloud_event hm hp hpr hrg,
                dispatch_run "report-generator".toList "REPORT_REQUEST".toList env run_job
                  cloud_event (report_request proj region payload) hm hp hpr hrg
                  (report_request_as_dispatch proj region payload)]

/-- C7: every invocation that reaches the run-job call attaches exactly one
environment variable to the execution's container spec; its value is the
full serialized payload, and the injected override is the entire environment
list of the single request issued. -/
theorem single_env_override {E H : Type} (env : Config)
    (run_job : RunJobRequest → Except E H) (cloud_event : CloudEvent)
    (body : List Char) (payload : Json) (proj region : List Char)
    (hb : cloud_event.message_data = some body)
    (hp : json_loads body = some payload)
    (h1 : env.PROJECT_ID = some proj) (h2 : env.REGION = some region) :
    ((trigger_scan_worker env run_job cloud_event).2 = [scan_request proj region payload] ∧
     (scan_request proj region payload).env = [("JOB_DATA".toList, json_dumps payload)] ∧
     (scan_request proj region payload).env.length = 1) ∧
    ((trigger_report_generator env run_job cloud_event).2
        = [report_request proj region payload] ∧
     (report_request proj region payload).env
        = [("REPORT_REQUEST".toList, json_dumps payload)] ∧
     (report_request proj region payload).env.length = 1) := by
  refine ⟨⟨?_, rfl, rfl⟩, ⟨?_, rfl, rfl⟩⟩
  · rw [trigger_scan_worker_run env run_job cloud_event hb hp h1 h2]
    split <;> rfl
  · rw [trigger_report_generator_run env run_job cloud_event hb hp h1 h2]
    split <;> rfl

theorem single_env_override_witness :
    (((trigger_scan_worker cfgTest runJobOk evA).2
        = [scan_request "my-project".toList "us-central1".toList payloadA] ∧
      (scan_request "my-project".toList "us-central1".toList payloadA).env
        = [("JOB_DATA".toList, json_dumps payloadA)] ∧
      (scan_request "my-project".toList "us-central1".toList payloadA).env.length = 1) ∧
     ((trigger_report_generator cfgTest runJobOk evA).2
        = [report_request "my-project".toList "us-central1".toList payloadA] ∧
      (report_request "my-project".toList "us-central1".toList payloadA).env
        = [("REPORT_REQUEST".toList, json_dumps payloadA)] ∧
      (report_request "my-project".toList "us-central1".toList payloadA).env.length = 1)) :=
  single_env_override cfgTest runJobOk evA bodyA payloadA
    "my-project".toList "us-central1".toList rfl rfl rfl rfl

/-- C8 (scenario A): on the event body
`{"url": "https://example.com", "depth": 2}` the scan dispatcher issues one
run-job call to `scanner-worker` whose single override is `JOB_DATA` bound
to exactly that re-serialized JSON text. -/
theorem scenario_a :
    trigger_scan_worker cfgTest runJobOk evA
      = (.ok 7,
         [{ name := "projects/my-project/locations/us-central1/jobs/scanner-worker".toList
            env := [("JOB_DATA".toList,
              "\x7b\"url\": \"https://example.com\", \"depth\": 2\x7d".toList)] }]) :=
  rfl

/-- C9: decoding precedes the configuration lookup — an invalid body yields
`DecodeError` whatever the configuration holds, and a
`ConfigurationError` outcome can only arise from an event whose body
decoded successfully. -/
theorem decode_precedes_config {E H : Type} (env : Config)
    (run_job : RunJobRequest → Except E H) (cloud_event : CloudEvent) :
    (∀ body, cloud_event.message_data = some body → json_loads body = none →
      trigger_scan_worker env run_job cloud_event = (.error .DecodeError, []) ∧
      trigger_report_generator env run_job cloud_event = (.error .DecodeError, [])) ∧
    ((trigger_scan_worker env run_job cloud_event).1 = .error .ConfigurationError →
      ∃ body payload, cloud_event.message_data = some body ∧
        json_loads body = some payload) ∧
    ((trigger_report_generator env run_job cloud_event).1 = .error .ConfigurationError →
      ∃ body payload, cloud_event.message_data = some body ∧
        json_loads body = some payload) := by
  refine ⟨?_, ?_, ?_⟩
  · intro body hb hp
    constructor <;> simp [trigger_scan_worker, trigger_report_generator, hb, hp]
  · intro hcfg
    rcases hm : cloud_event.message_data with _ | body
    · simp [trigger_scan_worker, hm] at hcfg
    · rcases hp : json_loads body with _ | payload
      · simp [trigger_scan_worker, hm, hp] at hcfg
      · exact ⟨body, payload, rfl, hp⟩
  · intro hcfg
    rcases hm : cloud_event.message_data with _ | body
    · simp [trigger_report_generator, hm] at hcfg
    · rcases hp : json_loads body with _ | payload
      · simp [trigger_report_generator, hm, hp] at hcfg
      · exact ⟨body, payload, rfl, hp⟩

theorem decode_precedes_config_witness :
    trigger_scan_worker cfgNone runJobOk evBad = (.error .DecodeError, []) ∧
    trigger_report_generator cfgNone runJobOk evBad = (.error .DecodeError, []) :=
  (decode_precedes_config cfgNone runJobOk evBad).1 "not-json".toList rfl rfl

/-- C10: the dispatchers are deterministic in their inputs — two
invocations seeing the same event body and the same project and region
configuration build identical run-job request traces, whatever the remote
service does and whatever it returns. -/
theorem dispatcher_deterministic {E1 H1 E2 H2 : Type} (env1 env2 : Config)
    (rj1 : RunJobRequest → Except E1 H1) (rj2 : RunJobRequest → Except E2 H2)
    (ev1 ev2 : CloudEvent)
    (hb : ev1.message_data = ev2.message_data)
    (h1 : env1.PROJECT_ID = env2.PROJECT_ID) (h2 : env1.REGION = env2.REGION) :
    (trigger_scan_worker env1 rj1 ev1).2 = (trigger_scan_worker env2 rj2 ev2).2 ∧
    (trigger_report_generator env1 rj1 ev1).2
      = (trigger_report_generator env2 rj2 ev2).2 := by
  constructor
  · rcases hm : ev1.message_data with _ | raw
    · have hm2 := hb.symm.trans hm
      simp [trigger_scan_worker, hm, hm2]
    · have hm2 := hb.symm.trans hm
      rcases hp : json_loads raw with _ | payload
      · simp [trigger_scan_worker, hm, hm2, hp]
      · rcases hpr : env1.PROJECT_ID with _ | proj
        · have hpr2 := h1.symm.trans hpr
          simp [trigger_scan_worker, hm, hm2, hp, hpr, hpr2]
        · have hpr2 := h1.symm.trans hpr
          rcases hrg : env1.REGION with _ | region
          · have hrg2 := h2.symm.trans hrg
            simp [trigger_scan_worker, hm, hm2, hp, hpr, hpr2, hrg, hrg2]
          · have hrg2 := h2.symm.trans hrg
            rw [trigger_scan_worker_run env1 rj1 ev1 hm hp hpr hrg,
                trigger_scan_worker_run env2 rj2 ev2 hm2 hp hpr2 hrg2]
            cases rj1 (scan_request proj region payload) <;>
              cases rj2 (scan_request proj region payload) <;> rfl
  · rcases hm : ev1.message_data with _ | raw
    · have hm2 := hb.symm.trans hm
      simp [trigger_report_generator, hm, hm2]
    · have hm2 := hb.symm.trans hm
      rcases hp : json_loads raw with _ | payload
      · simp [trigger_report_generator, hm, hm2, hp]
      · rcases hpr : env1.PROJECT_ID with _ | proj
        · have hpr2 := h1.symm.trans hpr
          simp [trigger_report_generator, hm, hm2, hp, hpr, hpr2]
        · have hpr2 := h1.symm.trans hpr
          rcases hrg : env1.REGION with _ | region
          · have hrg2 := h2.symm.trans hrg
            simp [trigger_report_generator, hm, hm2, hp, hpr, hpr2, hrg, hrg2]
          · have hrg2 := h2.symm.trans hrg
            rw [trigger_report_generator_run env1 rj1 ev1 hm hp hpr hrg,
                trigger_report_generator_run env2 rj2 ev2 hm2 hp hpr2 hrg2]
            cases rj1 (report_request proj region payload) <;>
              cases rj2 (report_request proj region payload) <;> rfl

theorem dispatcher_deterministic_witness :
    (trigger_scan_worker cfgTest runJobOk evA).2
      = (trigger_scan_worker cfgTest runJobFail evA).2 ∧
    (trigger_report_generator cfgTest runJobOk evA).2
      = (trigger_report_generator cfgTest runJobFail evA).2 :=
  dispatcher_deterministic cfgTest cfgTest runJobOk runJobFail evA evA rfl rfl rfl
